import Mathlib

/-! # kick-clipper: metrics store, worker loop and supervisor

A shallow embedding of `internal/models/models.go`, `internal/bot/manager.go`,
`internal/config/config.go`, `internal/proxy/manager.go`, the start-up path of `main.go`
and the formatting helpers of `pkg/utils/utils.go`.

Modelling conventions

* Go `int` is modelled by `Int`.  Sums and differences of counters are exact: every
  counter is bounded by the number of operations performed, far below `2^63`.  The
  products `time.Duration(...) * time.Second` of `UpdateGlobalMetrics` and
  `progress * width` of `GenerateProgressBar` leave the 64-bit range for values that the
  store can hold and that a caller can pass, and wrap around as in Go (`wrap64`).  The
  delay of `runBot` is a number of seconds taken from the configuration; its product with
  `time.Second` is exact for delays of less than `2^63 / 10^9` seconds.
* `map[int]*BotStats` is an association list from keys to records; a key that is
  absent from the list is a key whose map entry is `nil`.
* `float64` arithmetic is kept abstract by `FloatOps`: the store is parametric in the
  carrier and the operations, so the theorems hold for every interpretation of the
  floating-point operations.  `ratOps` is the exact rational interpretation, used to
  evaluate concrete runs.
* `time.Time` and `time.Duration` are integers (nanoseconds); the clock reading is an
  explicit input of `UpdateGlobalMetrics`.
* Go strings are Lean strings, read as lists of characters; the functions of the Go
  library that the code calls (`strconv.Itoa`, `strings.TrimSpace`, `strings.Split`,
  `strings.HasPrefix`, `strings.Repeat`) are modelled from their documentation.  The
  progress bar is the one string whose length is an argument of the caller; the size
  `maxAlloc` of the largest block that the runtime can allocate is a parameter there.
* Every store method holds `gs.Mu` for its whole body, so a method call is one atomic
  step.  A worker is the sequence of store calls it issues (`runBot`), and a concurrent
  run is an interleaving of the workers' sequences (`Interleaving`).
-/

namespace KickClipper

/-! ## Data model (`internal/models/models.go`) -/

/-- Record `BotStats`: the per-worker counters and labels. -/
structure BotStats where
  ID : Int
  Successful : Int := 0
  Failed : Int := 0
  Status : String := ""
  LastError : String := ""
deriving DecidableEq, Repr

/-- The map `Bots map[int]*BotStats` as an association list. -/
abbrev BotMap := List (Int × BotStats)

/-- Read `gs.Bots[botID]`; `none` is the `nil` entry. -/
def getBot : BotMap → Int → Option BotStats
  | [], _ => none
  | (k, v) :: rest, botID => if k = botID then some v else getBot rest botID

/-- Write `gs.Bots[botID] = b`: overwrite the entry of the key, or add one. -/
def setBot : BotMap → Int → BotStats → BotMap
  | [], botID, b => [(botID, b)]
  | (k, v) :: rest, botID, b =>
    if k = botID then (k, b) :: rest else (k, v) :: setBot rest botID b

/-- The guard `if gs.Bots[botID] == nil { gs.Bots[botID] = &BotStats{ID: botID} }`. -/
def ensureBot (bots : BotMap) (botID : Int) : BotMap :=
  match getBot bots botID with
  | some _ => bots
  | none => setBot bots botID { ID := botID }

/-- A field update through the pointer `gs.Bots[botID]`, when it is not `nil`. -/
def modifyBot (bots : BotMap) (botID : Int) (f : BotStats → BotStats) : BotMap :=
  match getBot bots botID with
  | some b => setBot bots botID (f b)
  | none => bots

/-- Sum of `Successful` over all worker records. -/
def sumSuccessful (bots : BotMap) : Int := (bots.map (fun p => p.2.Successful)).sum

/-- Sum of `Failed` over all worker records. -/
def sumFailed (bots : BotMap) : Int := (bots.map (fun p => p.2.Failed)).sum

/-- Record `GlobalStats` without its mutex; `F` is the carrier of `float64`. -/
structure GlobalStats (F : Type) where
  TotalSuccessful : Int
  TotalFailed : Int
  InitialViews : Int
  CurrentViews : Int
  StartTime : Int
  Bots : BotMap
  ActiveBots : Int
  FinishedBots : Int
  ProxiesCount : Int
  TargetViews : Int
  ViewsGained : Int
  ViewsPerSecond : F
  ViewsPerMinute : F
  SuccessRate : F
  EstimatedTimeLeft : Int

/-- The operations of `float64` that the store uses. -/
structure FloatOps (F : Type) where
  /-- The conversion `float64(n)`. -/
  ofInt : Int → F
  add : F → F → F
  mul : F → F → F
  div : F → F → F
  /-- The test `x > 0`. -/
  isPos : F → Bool
  /-- The conversion `time.Duration(x)` of a float to an integer. -/
  toInt : F → Int

/-- Exact rational interpretation of the float operations. -/
def ratOps : FloatOps ℚ where
  ofInt := fun n => (n : ℚ)
  add := fun a b => a + b
  mul := fun a b => a * b
  div := fun a b => a / b
  isPos := fun a => decide (0 < a)
  toInt := fun a => Int.tdiv a.num a.den

/-- Function `NewGlobalStats`: every field zero, the map empty. -/
def NewGlobalStats {F : Type} (fl : FloatOps F) : GlobalStats F where
  TotalSuccessful := 0
  TotalFailed := 0
  InitialViews := 0
  CurrentViews := 0
  StartTime := 0
  Bots := []
  ActiveBots := 0
  FinishedBots := 0
  ProxiesCount := 0
  TargetViews := 0
  ViewsGained := 0
  ViewsPerSecond := fl.ofInt 0
  ViewsPerMinute := fl.ofInt 0
  SuccessRate := fl.ofInt 0
  EstimatedTimeLeft := 0

/-- Method `UpdateBotStats`. -/
def UpdateBotStats {F : Type} (gs : GlobalStats F) (botID successful failed : Int)
    (status lastError : String) : GlobalStats F :=
  let bots := ensureBot gs.Bots botID
  let bot := (getBot bots botID).getD { ID := botID }
  { gs with
    TotalSuccessful := gs.TotalSuccessful + (successful - bot.Successful)
    TotalFailed := gs.TotalFailed + (failed - bot.Failed)
    Bots := setBot bots botID
      { bot with Successful := successful, Failed := failed, Status := status,
                 LastError := lastError } }

/-- Method `IncrementSuccess`. -/
def IncrementSuccess {F : Type} (gs : GlobalStats F) (botID : Int) : GlobalStats F :=
  { gs with
    Bots := modifyBot (ensureBot gs.Bots botID) botID
      (fun b => { b with Successful := b.Successful + 1 })
    TotalSuccessful := gs.TotalSuccessful + 1 }

/-- Method `IncrementFailed`. -/
def IncrementFailed {F : Type} (gs : GlobalStats F) (botID : Int) (error : String) :
    GlobalStats F :=
  { gs with
    Bots := modifyBot (ensureBot gs.Bots botID) botID
      (fun b => { b with Failed := b.Failed + 1, LastError := error })
    TotalFailed := gs.TotalFailed + 1 }

/-- Method `UpdateBotStatus`. -/
def UpdateBotStatus {F : Type} (gs : GlobalStats F) (botID : Int) (status : String) :
    GlobalStats F :=
  { gs with
    Bots := modifyBot (ensureBot gs.Bots botID) botID (fun b => { b with Status := status }) }

/-- Method `SetActiveBot`. -/
def SetActiveBot {F : Type} (gs : GlobalStats F) (botID : Int) : GlobalStats F :=
  { gs with
    Bots := ensureBot gs.Bots botID
    ActiveBots := gs.ActiveBots + 1 }

/-- Method `SetFinishedBot`: the record is stamped only when it exists. -/
def SetFinishedBot {F : Type} (gs : GlobalStats F) (botID : Int) : GlobalStats F :=
  { gs with
    ActiveBots := gs.ActiveBots - 1
    FinishedBots := gs.FinishedBots + 1
    Bots := modifyBot gs.Bots botID (fun b => { b with Status := "Finished" }) }

/-- Method `Duration.Seconds` of the Go library: whole seconds plus the fraction. -/
def durationSeconds {F : Type} (fl : FloatOps F) (d : Int) : F :=
  fl.add (fl.ofInt (Int.tdiv d 1000000000))
    (fl.div (fl.ofInt (Int.tmod d 1000000000)) (fl.ofInt 1000000000))

/-- The block "Calculate success rate" of `UpdateGlobalMetrics`. -/
def updateSuccessRate {F : Type} (fl : FloatOps F) (gs : GlobalStats F) : GlobalStats F :=
  let total := gs.TotalSuccessful + gs.TotalFailed
  if total > 0 then
    { gs with
      SuccessRate :=
        fl.mul (fl.div (fl.ofInt gs.TotalSuccessful) (fl.ofInt total)) (fl.ofInt 100) }
  else gs

/-- The block "Calculate views gained and rates" of `UpdateGlobalMetrics`; `runtime` is
the duration `time.Since(gs.StartTime)`. -/
def updateViewRates {F : Type} (fl : FloatOps F) (gs : GlobalStats F) (runtime : Int) :
    GlobalStats F :=
  if gs.CurrentViews > 0 ∧ gs.InitialViews > 0 then
    let gs1 : GlobalStats F := { gs with ViewsGained := gs.CurrentViews - gs.InitialViews }
    if fl.isPos (durationSeconds fl runtime) = true then
      let gs2 : GlobalStats F :=
        { gs1 with
          ViewsPerSecond := fl.div (fl.ofInt gs1.ViewsGained) (durationSeconds fl runtime) }
      { gs2 with ViewsPerMinute := fl.mul gs2.ViewsPerSecond (fl.ofInt 60) }
    else gs1
  else gs

/-- The value of a 64-bit signed integer operation whose exact result is `x`: Go wraps
around on overflow, to the representative of `x` modulo `2^64` in `[-2^63, 2^63)`. -/
def wrap64 (x : Int) : Int :=
  (x + 9223372036854775808) % 18446744073709551616 - 9223372036854775808

/-- The block "Estimate time left" of `UpdateGlobalMetrics`.  The product
`time.Duration(...) * time.Second` is a product of 64-bit integers and wraps around. -/
def updateEstimate {F : Type} (fl : FloatOps F) (gs : GlobalStats F) : GlobalStats F :=
  if fl.isPos gs.ViewsPerSecond = true ∧ gs.TargetViews > 0 then
    let remaining := gs.TargetViews - gs.TotalSuccessful
    if remaining > 0 then
      { gs with
        EstimatedTimeLeft :=
          wrap64 (fl.toInt (fl.div (fl.ofInt remaining) gs.ViewsPerSecond) * 1000000000) }
    else gs
  else gs

/-- Method `UpdateGlobalMetrics`; `now` is the clock reading taken by `time.Since`.  The
body is the assignment of `CurrentViews` followed by its three blocks, in order. -/
def UpdateGlobalMetrics {F : Type} (fl : FloatOps F) (gs : GlobalStats F)
    (currentViews now : Int) : GlobalStats F :=
  let gs1 : GlobalStats F := { gs with CurrentViews := currentViews }
  let runtime := now - gs1.StartTime
  updateEstimate fl (updateViewRates fl (updateSuccessRate fl gs1) runtime)

/-! ## Store operations as atomic steps -/

/-- One call of a store method, with its arguments. -/
inductive Op where
  | UpdateBotStats (botID successful failed : Int) (status lastError : String)
  | IncrementSuccess (botID : Int)
  | IncrementFailed (botID : Int) (error : String)
  | UpdateBotStatus (botID : Int) (status : String)
  | SetActiveBot (botID : Int)
  | SetFinishedBot (botID : Int)
  | UpdateGlobalMetrics (currentViews now : Int)
deriving DecidableEq, Repr

/-- Effect of one store call. -/
def applyOp {F : Type} (fl : FloatOps F) (gs : GlobalStats F) : Op → GlobalStats F
  | .UpdateBotStats botID successful failed status lastError =>
    UpdateBotStats gs botID successful failed status lastError
  | .IncrementSuccess botID => IncrementSuccess gs botID
  | .IncrementFailed botID error => IncrementFailed gs botID error
  | .UpdateBotStatus botID status => UpdateBotStatus gs botID status
  | .SetActiveBot botID => SetActiveBot gs botID
  | .SetFinishedBot botID => SetFinishedBot gs botID
  | .UpdateGlobalMetrics currentViews now => UpdateGlobalMetrics fl gs currentViews now

/-- Effect of a sequence of store calls, first call first. -/
def applyOps {F : Type} (fl : FloatOps F) (gs : GlobalStats F) (ops : List Op) :
    GlobalStats F :=
  ops.foldl (applyOp fl) gs

/-! ## Worker loop (`internal/bot/manager.go`) -/

/-- What one iteration of `runBot` observes from its surroundings. -/
structure Observation where
  /-- The loop-top `select` finds `ctx.Done()` ready. -/
  cancelAtTop : Bool := false
  /-- The error of `SimulateView`; `none` is the `nil` error. -/
  err : Option String := none
  /-- The second `select` takes `ctx.Done()` before `time.After(delay)`. -/
  cancelInWait : Bool := false
deriving DecidableEq, Repr

/-- The label `fmt.Sprintf("View %d/%d", viewNum, bm.config.ViewsPerBot)`. -/
def viewStatus (viewNum viewsPerBot : Int) : String :=
  "View " ++ toString viewNum ++ "/" ++ toString viewsPerBot

/-- The `for viewNum := ...; viewNum <= ViewsPerBot; viewNum++` loop of `runBot`, from
the iteration `viewNum` on, followed by the final status update: the store calls it
issues, in order.  `obs viewNum` is what iteration `viewNum` observes; the sampled delay
itself is not recorded, only which case of the second `select` is taken. -/
def runBotLoop (obs : Int → Observation) (botID viewsPerBot viewNum : Int) : List Op :=
  if viewNum ≤ viewsPerBot then
    if (obs viewNum).cancelAtTop then
      [Op.UpdateBotStatus botID "Stopped"]
    else
      Op.UpdateBotStatus botID (viewStatus viewNum viewsPerBot) ::
      (match (obs viewNum).err with
        | some e => Op.IncrementFailed botID e
        | none => Op.IncrementSuccess botID) ::
      (if (obs viewNum).cancelInWait then
        [Op.UpdateBotStatus botID "Stopped"]
      else
        runBotLoop obs botID viewsPerBot (viewNum + 1))
  else
    [Op.UpdateBotStatus botID "Finished"]
termination_by (viewsPerBot + 1 - viewNum).toNat
decreasing_by omega

/-- Method `runBot`: `SetActiveBot`, the loop, and the deferred `SetFinishedBot`, which
runs on every return. -/
def runBot (obs : Int → Observation) (botID viewsPerBot : Int) : List Op :=
  Op.SetActiveBot botID :: (runBotLoop obs botID viewsPerBot 1 ++ [Op.SetFinishedBot botID])

/-! ## Supervisor (`internal/bot/manager.go`) -/

/-- The workers started by the loop `for i := 1; i <= BotCount; i++` of `StartBots`, from
the identity `i` on: one sequence of store calls for each `go bm.runBot(i, ...)`.
`obs i` is what worker `i` observes. -/
def launchBots (obs : Int → Int → Observation) (botCount viewsPerBot i : Int) :
    List (List Op) :=
  if i ≤ botCount then
    runBot (obs i) i viewsPerBot :: launchBots obs botCount viewsPerBot (i + 1)
  else
    []
termination_by (botCount + 1 - i).toNat
decreasing_by omega

/-- The schedules of concurrently running workers: `Interleaving ts sched` holds when
`sched` runs every call of every sequence in `ts` once, each sequence in its own order. -/
inductive Interleaving : List (List Op) → List Op → Prop
  | done (ts : List (List Op)) : (∀ t ∈ ts, t = []) → Interleaving ts []
  | step (pre post : List (List Op)) (op : Op) (rest sched : List Op) :
      Interleaving (pre ++ rest :: post) sched →
      Interleaving (pre ++ (op :: rest) :: post) (op :: sched)

/-- Method `StartBots`: the start time is stamped, the workers run concurrently and
`wg.Wait()` returns when the last of them has returned.  `gs1` is a store that
`StartBots` can return with, when called on `gs` at clock reading `now`. -/
def StartBotsReturns {F : Type} (fl : FloatOps F) (obs : Int → Int → Observation)
    (botCount viewsPerBot : Int) (gs : GlobalStats F) (now : Int) (gs1 : GlobalStats F) :
    Prop :=
  ∃ sched, Interleaving (launchBots obs botCount viewsPerBot 1) sched ∧
    gs1 = applyOps fl { gs with StartTime := now } sched

/-! ## Start-up path (`internal/config/config.go`, `main.go`) -/

/-- Record `Proxy`. -/
structure Proxy where
  IP : String
  Port : String
  Username : String
  Password : String
deriving DecidableEq, Repr

/-- Record `Config`. -/
structure Config where
  ProxyFile : String
  NoproxyMode : Bool
  BotCount : Int
  ViewsPerBot : Int
  ClipURL : String
  NoInteractive : Bool
  Timeout : Int
  MinDelay : Int
  MaxDelay : Int
deriving DecidableEq, Repr

/-- Function `DefaultConfig`. -/
def DefaultConfig : Config where
  ProxyFile := "proxies.txt"
  NoproxyMode := false
  BotCount := 0
  ViewsPerBot := 0
  ClipURL := ""
  NoInteractive := false
  Timeout := 15
  MinDelay := 2
  MaxDelay := 8

/-- What `Application.run` reads from outside the program before the workers start. -/
structure StartupInputs where
  /-- Result of `proxyMgr.LoadFromFile(ProxyFile)`: an error, or the loaded list. -/
  proxyFile : Except String (List Proxy)
  /-- The trimmed line read by `promptForClipURL`. -/
  clipURL : String
  /-- The line read by `promptForBotCount` as `strconv.Atoi` reads it; `none` is an empty
  or malformed line. -/
  botCount : Option Int
  /-- The successive lines read by `promptForViewsPerBot`, as `strconv.Atoi` reads them. -/
  viewsPerBot : List (Option Int)
  /-- The answer to "Continue? (y/N)" is "y". -/
  confirm : Bool
  /-- Result of `kickClient.ParseClipURL`: channel name and clip id, or no match. -/
  parseClipURL : String → Option (String × String)
  /-- Result of `kickClient.GetClipViews` for the initial view count. -/
  initialViews : Except String Int

/-- State of `Application`: the configuration, the metrics store and the loaded proxies. -/
structure Application (F : Type) where
  config : Config
  stats : GlobalStats F
  proxies : List Proxy

/-- How `Application.run` leaves the start-up path. -/
inductive Startup (F : Type) where
  /-- An error is returned and the run never begins. -/
  | fails (msg : String)
  /-- The process ends by `os.Exit(0)`. -/
  | exits
  /-- The prompt for the views per bot never gets a valid answer. -/
  | hangs
  /-- The call `app.start` is reached with this state: the workers are started. -/
  | starts (app : Application F)

/-- Function `NewApplication`. -/
def NewApplication {F : Type} (fl : FloatOps F) : Application F where
  config := DefaultConfig
  stats := NewGlobalStats fl
  proxies := []

/-- Method `Application.initialize`. -/
def initApp {F : Type} (inp : StartupInputs) (app : Application F) :
    Except String (Application F) :=
  if ¬ app.config.NoproxyMode then
    match inp.proxyFile with
    | .error e => .error e
    | .ok loaded =>
      if loaded.length = 0 then
        .error ("No valid proxies found in " ++ app.config.ProxyFile)
      else
        .ok { app with
              proxies := loaded
              stats := { app.stats with ProxiesCount := (loaded.length : Int) } }
  else .ok app

/-- Method `Application.calculateOptimalBotCount`. -/
def calculateOptimalBotCount {F : Type} (app : Application F) : Int :=
  if ¬ app.config.NoproxyMode ∧ (app.proxies.length : Int) > 0 then
    (app.proxies.length : Int) * 5
  else 10

/-- Method `Application.promptForBotCount`. -/
def promptForBotCount (inp : StartupInputs) (autoCalculated : Int) : Int :=
  match inp.botCount with
  | some count => if count > 0 then count else autoCalculated
  | none => autoCalculated

/-- Method `Application.promptForViewsPerBot`: it asks again until a line is a positive
number; `none` when no line ever is. -/
def promptForViewsPerBot : List (Option Int) → Option Int
  | [] => none
  | some views :: rest => if views ≤ 0 then promptForViewsPerBot rest else some views
  | none :: rest => promptForViewsPerBot rest

/-- Method `Application.runInteractiveSetup`. -/
def runInteractiveSetup {F : Type} (inp : StartupInputs) (app : Application F) :
    Startup F :=
  let app1 : Application F :=
    if app.config.ClipURL = "" then
      { app with config := { app.config with ClipURL := inp.clipURL } }
    else app
  let app2 : Application F :=
    if app1.config.BotCount = 0 then
      { app1 with config := { app1.config with
          BotCount := promptForBotCount inp (calculateOptimalBotCount app1) } }
    else app1
  let withViews (app3 : Application F) : Startup F :=
    let app4 : Application F :=
      { app3 with stats := { app3.stats with
          TargetViews := app3.config.BotCount * app3.config.ViewsPerBot } }
    if app4.config.NoproxyMode then
      if inp.confirm then .starts app4 else .exits
    else .starts app4
  if app2.config.ViewsPerBot = 0 then
    match promptForViewsPerBot inp.viewsPerBot with
    | none => .hangs
    | some views => withViews { app2 with config := { app2.config with ViewsPerBot := views } }
  else withViews app2

/-- Method `Application.validateConfig`: the error it returns, if any. -/
def validateConfig (c : Config) : Option String :=
  if c.ClipURL = "" then some "Clip URL is required"
  else if c.BotCount ≤ 0 then some "Bot count must be positive"
  else if c.ViewsPerBot ≤ 0 then some "Views per bot must be positive"
  else none

/-- Method `Application.getInitialViews`; a failure is only reported as a warning. -/
def getInitialViews {F : Type} (inp : StartupInputs) (app : Application F) : Application F :=
  match inp.initialViews with
  | .error _ => app
  | .ok views => { app with stats := { app.stats with InitialViews := views, CurrentViews := views } }

/-- Method `Application.run` up to the call of `app.start`, which starts the workers. -/
def run {F : Type} (inp : StartupInputs) (app : Application F) : Startup F :=
  match initApp inp app with
  | .error e => .fails e
  | .ok app1 =>
    let afterSetup : Startup F :=
      if ¬ app1.config.NoInteractive then runInteractiveSetup inp app1 else .starts app1
    match afterSetup with
    | .starts app2 =>
      match validateConfig app2.config with
      | some e => .fails e
      | none =>
        match inp.parseClipURL app2.config.ClipURL with
        | none => .fails "invalid Kick.com clip URL format. Expected: https://kick.com/CHANNEL/clips/CLIP_ID"
        | some _ => .starts (getInitialViews inp app2)
    | other => other

/-! ## Auxiliary definitions of the proofs -/

/-- The totals agree with the sums over the worker records. -/
def SumConsistent {F : Type} (gs : GlobalStats F) : Prop :=
  gs.TotalSuccessful = sumSuccessful gs.Bots ∧ gs.TotalFailed = sumFailed gs.Bots

/-- Change of `ActiveBots` made by one store call. -/
def activeDelta : Op → Int
  | .SetActiveBot _ => 1
  | .SetFinishedBot _ => -1
  | _ => 0

/-- Change of `FinishedBots` made by one store call. -/
def finishedDelta : Op → Int
  | .SetFinishedBot _ => 1
  | _ => 0

/-- Change of `TotalSuccessful` made by one store call of a worker. -/
def successDelta : Op → Int
  | .IncrementSuccess _ => 1
  | _ => 0

/-- Change of `TotalFailed` made by one store call of a worker. -/
def failedDelta : Op → Int
  | .IncrementFailed _ _ => 1
  | _ => 0

/-- The store calls that the loop of worker `botID` can issue. -/
def isLoopOp (botID : Int) : Op → Bool
  | .UpdateBotStatus b _ => decide (b = botID)
  | .IncrementSuccess b => decide (b = botID)
  | .IncrementFailed b _ => decide (b = botID)
  | _ => false

/-- The store calls that a worker can issue: neither `UpdateBotStats` nor
`UpdateGlobalMetrics`. -/
def isWorkerOp : Op → Bool
  | .UpdateBotStats _ _ _ _ _ => false
  | .UpdateGlobalMetrics _ _ => false
  | _ => true

/-- The calls `SetActiveBot`. -/
def isSetActive : Op → Bool
  | .SetActiveBot _ => true
  | _ => false

/-- The calls `SetFinishedBot`. -/
def isSetFinished : Op → Bool
  | .SetFinishedBot _ => true
  | _ => false

/-- Sum of a per-call quantity over all calls of all workers. -/
def sumOver (f : Op → Int) (ts : List (List Op)) : Int :=
  (ts.map (fun t => (t.map f).sum)).sum

/-- The target total that the store holds when the workers are started, if they are. -/
def targetAtStart {F : Type} : Startup F → Option Int
  | .starts app => some app.stats.TargetViews
  | _ => none

/-- The product `BotCount * ViewsPerBot` when the workers are started, if they are. -/
def plannedAtStart {F : Type} : Startup F → Option Int
  | .starts app => some (app.config.BotCount * app.config.ViewsPerBot)
  | _ => none

/-! ## Stores and inputs of the worked instances -/

/-- A store in which worker 2 has one failed operation and worker 1 has no record. -/
def oneFailureStore : GlobalStats ℚ := IncrementFailed (NewGlobalStats ratOps) 2 "HTTP 500"

/-- The observations of a worker that finds the context cancelled at every check. -/
def cancelledAtOnce : Int → Observation := fun _ => { cancelAtTop := true }

/-- Three workers that never observe cancellation and whose operations all succeed. -/
def allSucceed : Int → Int → Observation := fun _ _ => {}

/-- A store after the start-up path has recorded 100 initial views and a target of 10
operations. -/
def startedStore : GlobalStats ℚ :=
  { NewGlobalStats ratOps with InitialViews := 100, TargetViews := 10 }

/-- The store ten seconds into the run, after one poll that read 110 views. -/
def polledStore : GlobalStats ℚ := UpdateGlobalMetrics ratOps startedStore 110 10000000000

/-- A store with a target of 2000000 operations, none of them done yet, whose stored rate
is one view in 8192 seconds: the remaining time, 16384000000 s, is more than the
`2^63 - 1` nanoseconds a `time.Duration` holds. -/
def slowStore : GlobalStats ℚ :=
  { NewGlobalStats ratOps with TargetViews := 2000000, ViewsPerSecond := 1 / 8192 }

/-- The configuration after the flags
`--no-proxy --bots 2 --views-per-bot 3 --url https://kick.com/chan/clips/clip_1`. -/
def flagsConfig : Config :=
  { DefaultConfig with
    NoproxyMode := true, BotCount := 2, ViewsPerBot := 3,
    ClipURL := "https://kick.com/chan/clips/clip_1" }

/-- Inputs of a run where the clip is found and has 100 views. -/
def plainInputs : StartupInputs where
  proxyFile := .ok []
  clipURL := ""
  botCount := none
  viewsPerBot := []
  confirm := true
  parseClipURL := fun _ => some ("chan", "clip_1")
  initialViews := .ok 100

/-! ## Auxiliary definitions for the success rate and the totals -/

/-- The stores reached during a run: `gs1` is the store after some initial part `p` of
a schedule of the workers started by `StartBots` on `gs` at clock reading `now`. -/
def RunReaches {F : Type} (fl : FloatOps F) (obs : Int → Int → Observation)
    (botCount viewsPerBot : Int) (gs : GlobalStats F) (now : Int) (gs1 : GlobalStats F) :
    Prop :=
  ∃ p q, Interleaving (launchBots obs botCount viewsPerBot 1) (p ++ q) ∧
    gs1 = applyOps fl { gs with StartTime := now } p

/-- No final part of the call sequence raises `ActiveBots`. -/
def NonposTails (t : List Op) : Prop :=
  ∀ s, s <:+ t → (s.map activeDelta).sum ≤ 0

/-- Two workers with one operation each; the operation of worker 2 fails. -/
def secondFails : Int → Int → Observation := fun i _ =>
  if i = 2 then { err := some "HTTP 500" } else {}

/-! ## Auxiliary definitions for the last error of a worker -/

/-- The number of times the loop of `runBot` calls `bm.client.SimulateView`, from the
iteration `viewNum` on: once in every iteration that passes the loop-top check. -/
def executorCalls (obs : Int → Observation) (viewsPerBot viewNum : Int) : Nat :=
  if viewNum ≤ viewsPerBot then
    if (obs viewNum).cancelAtTop then
      0
    else
      1 + (if (obs viewNum).cancelInWait then 0
           else executorCalls obs viewsPerBot (viewNum + 1))
  else
    0
termination_by (viewsPerBot + 1 - viewNum).toNat
decreasing_by omega

/-- No iteration before iteration `k` observes cancellation. -/
def quietBefore (obs : Int → Observation) (k : Int) : Prop :=
  ∀ j, 1 ≤ j → j < k → (obs j).cancelAtTop = false ∧ (obs j).cancelInWait = false

/-- Cancellation is first observed at the loop-top check of iteration `k`. -/
def cancelledAtTop (obs : Int → Observation) (k : Int) : Prop :=
  quietBefore obs k ∧ (obs k).cancelAtTop = true

/-- Cancellation is first observed during the delay wait of iteration `k`. -/
def cancelledInWait (obs : Int → Observation) (k : Int) : Prop :=
  quietBefore obs k ∧ (obs k).cancelAtTop = false ∧ (obs k).cancelInWait = true

/-- The outcomes recorded for worker `w`: `Successful + Failed` of its record, 0 when it
has none. -/
def recordedOutcomes {F : Type} (gs : GlobalStats F) (w : Int) : Int :=
  match getBot gs.Bots w with
  | some b => b.Successful + b.Failed
  | none => 0

/-- Change of `recordedOutcomes` of worker `w` made by one store call of a worker. -/
def outcomeDeltaOf (w : Int) : Op → Int
  | .IncrementSuccess botID => if botID = w then 1 else 0
  | .IncrementFailed botID _ => if botID = w then 1 else 0
  | _ => 0

/-- A worker that observes cancellation at the loop-top check of iteration 3, after two
operations of which the second fails. -/
def cancelledAtThird : Int → Observation := fun k =>
  if k = 3 then { cancelAtTop := true }
  else if k = 2 then { err := some "HTTP 500" }
  else {}

/-! ## Delay sampling (`runBot`) -/

/-- The filled cell, the character U+2588. -/
def fullCell : Char := Char.ofNat 0x2588

/-- The empty cell, the character U+2591. -/
def emptyCell : Char := Char.ofNat 0x2591

/-- The length `len(s)` in bytes of a Go string, given by its characters: Go strings
are UTF-8, and each of the two cells takes three bytes. -/
def byteLen (cs : List Char) : Int := (cs.map (fun c => (c.utf8Size : Int))).sum

/-- Whether the runtime can create a string of `n` bytes: the length of a Go string is
an `int`, at most `2^63 - 1`, and `maxAlloc` is the size in bytes of the largest block
that the runtime can allocate. -/
def canAllocate (maxAlloc n : Int) : Bool :=
  decide (n ≤ 9223372036854775807 ∧ n ≤ maxAlloc)

/-- Function `strings.Repeat` of the Go library for a one-character string.  It panics
on a negative count and when the length `len(s) * count` of the result overflows, and
the result has to be allocated; `none` is a run that does not return. -/
def repeatCell (maxAlloc : Int) (cell : Char) (count : Int) : Option (List Char) :=
  if count < 0 then none
  else if canAllocate maxAlloc (byteLen [cell] * count) = true then
    some (List.replicate count.toNat cell)
  else none

/-- The value of `progress` after the two clamping statements of `GenerateProgressBar`. -/
def clampedProgress (progress : Int) : Int :=
  let p1 := if progress > 100 then 100 else progress
  if p1 < 0 then 0 else p1

/-- The value `filled := (progress * width) / 100` of `GenerateProgressBar`: the product
is a product of 64-bit integers and wraps around, `/` is the truncating division of
Go. -/
def filledCells (progress width : Int) : Int :=
  Int.tdiv (wrap64 (clampedProgress progress * width)) 100

/-- Function `GenerateProgressBar`; `none` is a run that does not return, because
`strings.Repeat` panics or the bar cannot be allocated.  The concatenation of the two
parts is a new string. -/
def GenerateProgressBar (maxAlloc progress width : Int) : Option String :=
  let filled := filledCells progress width
  match repeatCell maxAlloc fullCell filled,
      repeatCell maxAlloc emptyCell (wrap64 (width - filled)) with
  | some a, some b =>
    if canAllocate maxAlloc (byteLen a + byteLen b) = true then some (String.mk (a ++ b))
    else none
  | _, _ => none

/-! ## Number formatting (`pkg/utils/utils.go`) -/

/-- Function `strconv.Itoa` of the Go library: the decimal representation, with a
leading `-` for a negative number. -/
def Itoa (n : Int) : String := toString n

/-- The loop `for i, char := range str` of `FormatNumber`, from the index `i` on:
a comma goes before the character at index `i` when `i > 0 && (len(str)-i)%3 == 0`. -/
def insertSeparators (len : Nat) : Nat → List Char → List Char
  | _, [] => []
  | i, c :: cs =>
    (if i > 0 ∧ (len - i) % 3 = 0 then [','] else []) ++ c :: insertSeparators len (i + 1) cs

/-- Function `FormatNumber`. -/
def FormatNumber (n : Int) : String :=
  let str := (Itoa n).toList
  if str.length ≤ 3 then String.mk str
  else String.mk (insertSeparators str.length 0 str)

/-- The characters after a comma are exactly three digits, followed by a comma or by
the end of the string. -/
def groupOfThree : List Char → Bool
  | a :: b :: c :: rest =>
    a.isDigit && b.isDigit && c.isDigit &&
      (match rest with
       | [] => true
       | d :: _ => d == ',')
  | _ => false

/-- Every comma has a decimal digit immediately before it (`prev` is the character
before the list) and a group of three digits after it. -/
def commasPlaced (prev : Option Char) : List Char → Bool
  | [] => true
  | c :: cs =>
    (if c = ',' then
      (match prev with
       | some p => p.isDigit
       | none => false) && groupOfThree cs
     else true) && commasPlaced (some c) cs

/-- The property that claim C18 states of `FormatNumber(n)`: without its commas the
output is the decimal representation of `n`, and every comma is placed as
`commasPlaced` says. -/
def separatedCorrectly (n : Int) : Bool :=
  decide ((FormatNumber n).toList.filter (fun c => c ≠ ',') = (Itoa n).toList) &&
    commasPlaced none (FormatNumber n).toList

/-! ## Proxy list (`internal/proxy/manager.go`) -/

/-- Function `unicode.IsSpace` of the Go library, by code point. -/
def isSpace (c : Char) : Bool :=
  let n := c.toNat
  (9 ≤ n && n ≤ 13) || n == 32 || n == 133 || n == 160 || n == 5760 ||
    (8192 ≤ n && n ≤ 8202) || n == 8232 || n == 8233 || n == 8239 || n == 8287 ||
    n == 12288

/-- Function `strings.TrimSpace` of the Go library. -/
def TrimSpace (s : List Char) : List Char :=
  ((s.dropWhile isSpace).reverse.dropWhile isSpace).reverse

/-- Function `strings.HasPrefix` of the Go library. -/
def HasPrefix (s pre : List Char) : Bool :=
  pre.isPrefixOf s

/-- Function `strings.Split` of the Go library for a separator of one character: the
pieces between the occurrences of `sep`, one more than there are occurrences. -/
def Split (sep : Char) : List Char → List (List Char)
  | [] => [[]]
  | c :: cs =>
    if c = sep then [] :: Split sep cs
    else
      match Split sep cs with
      | piece :: pieces => (c :: piece) :: pieces
      | [] => [[c]]

/-- Record `Manager` of the package `proxy`. -/
structure ProxyManager where
  proxies : List Proxy
deriving DecidableEq, Repr

/-- Function `NewManager` of the package `proxy`. -/
def NewProxyManager : ProxyManager := { proxies := [] }

/-- The loop `for scanner.Scan()` of `LoadFromFile` over the lines that are left, with
`proxyList` as accumulated so far; each `continue` goes on with the next line. -/
def loadLoop : List String → List Proxy → List Proxy
  | [], proxyList => proxyList
  | text :: rest, proxyList =>
    let line := TrimSpace text.toList
    if line = [] ∨ HasPrefix line ['#'] = true then loadLoop rest proxyList
    else
      let parts := Split ':' line
      if parts.length ≠ 4 then loadLoop rest proxyList
      else
        let proxy : Proxy :=
          { IP := String.mk (TrimSpace (parts.getD 0 []))
            Port := String.mk (TrimSpace (parts.getD 1 []))
            Username := String.mk (TrimSpace (parts.getD 2 []))
            Password := String.mk (TrimSpace (parts.getD 3 [])) }
        if proxy.IP = "" ∨ proxy.Port = "" then loadLoop rest proxyList
        else loadLoop rest (proxyList ++ [proxy])

/-- What `LoadFromFile` gets from the file system: an error of `os.Open`, or the lines
that the scanner yields and the error of `scanner.Err()`, if any. -/
structure ProxyFileRead where
  openError : Option String
  lines : List String
  scanError : Option String

/-- Method `LoadFromFile`: the manager afterwards and the error returned, if any. The
list is stored only when the file was read without error. -/
def LoadFromFile (file : ProxyFileRead) (pm : ProxyManager) : ProxyManager × Option String :=
  match file.openError with
  | some e => (pm, some ("failed to open proxy file: " ++ e))
  | none =>
    let proxyList := loadLoop file.lines []
    match file.scanError with
    | some e => (pm, some ("error reading proxy file: " ++ e))
    | none => ({ pm with proxies := proxyList }, none)

/-- Method `Count` of the proxy manager. -/
def Count (pm : ProxyManager) : Int := (pm.proxies.length : Int)

/-- Method `IsEmpty` of the proxy manager. -/
def IsEmpty (pm : ProxyManager) : Bool := decide (pm.proxies.length = 0)

/-- Acceptance of a line as claim C19 words it: the trimmed line is non-empty, does not
start with `#`, splits on `:` into exactly four parts, and the trimmed first and second
parts are non-empty. -/
def lineAccepted (text : String) : Bool :=
  decide (TrimSpace text.toList ≠ []) &&
  !((TrimSpace text.toList).head? == some '#') &&
  decide ((Split ':' (TrimSpace text.toList)).length = 4) &&
  decide (TrimSpace ((Split ':' (TrimSpace text.toList)).getD 0 []) ≠ []) &&
  decide (TrimSpace ((Split ':' (TrimSpace text.toList)).getD 1 []) ≠ [])

/-- The proxy of an accepted line: its four parts, each whitespace-trimmed. -/
def lineProxy (text : String) : Proxy :=
  { IP := String.mk (TrimSpace ((Split ':' (TrimSpace text.toList)).getD 0 []))
    Port := String.mk (TrimSpace ((Split ':' (TrimSpace text.toList)).getD 1 []))
    Username := String.mk (TrimSpace ((Split ':' (TrimSpace text.toList)).getD 2 []))
    Password := String.mk (TrimSpace ((Split ':' (TrimSpace text.toList)).getD 3 [])) }

/-- A proxy file with a comment, an empty line, two good lines and three bad ones. -/
def sampleProxyLines : List String :=
  ["# proxies", "", "  1.2.3.4:8080:user:pass ", "1.2.3.4:8080", " :8080:user:pass",
   "5.6.7.8 : 3128 : : ", "a:b:c:d:e"]

/-! # Theorems -/

/-! ## 64-bit wrap-around -/

theorem wrap64_eq_self (x : Int) (h1 : -9223372036854775808 ≤ x)
    (h2 : x < 9223372036854775808) : wrap64 x = x := by
  unfold wrap64
  omega

theorem wrap64_range (x : Int) :
    -9223372036854775808 ≤ wrap64 x ∧ wrap64 x < 9223372036854775808 := by
  unfold wrap64
  omega

/-! ## Lemmas on the worker map -/

theorem getBot_setBot_same (bots : BotMap) (botID : Int) (b : BotStats) :
    getBot (setBot bots botID b) botID = some b := by
  induction bots with
  | nil => simp [setBot, getBot]
  | cons p rest ih =>
    obtain ⟨k, v⟩ := p
    by_cases h : k = botID
    · simp [setBot, getBot, h]
    · simp [setBot, getBot, h, ih]

theorem getBot_setBot_other (bots : BotMap) (botID other : Int) (b : BotStats)
    (h : other ≠ botID) : getBot (setBot bots botID b) other = getBot bots other := by
  induction bots with
  | nil => simp [setBot, getBot, Ne.symm h]
  | cons p rest ih =>
    obtain ⟨k, v⟩ := p
    by_cases hk : k = botID
    · subst hk
      simp [setBot, getBot, Ne.symm h]
    · by_cases hko : k = other
      · subst hko
        simp [setBot, getBot, hk]
      · simp [setBot, getBot, hk, hko, ih]

theorem sum_setBot (f : BotStats → Int) (bots : BotMap) (botID : Int) (b : BotStats) :
    ((setBot bots botID b).map (fun p => f p.2)).sum =
      (bots.map (fun p => f p.2)).sum - ((getBot bots botID).map f).getD 0 + f b := by
  induction bots with
  | nil => simp [setBot, getBot]
  | cons p rest ih =>
    obtain ⟨k, v⟩ := p
    by_cases h : k = botID
    · simp [setBot, getBot, h]
      omega
    · simp [setBot, getBot, h, ih]
      omega

theorem getBot_ensureBot_same (bots : BotMap) (botID : Int) :
    getBot (ensureBot bots botID) botID = some ((getBot bots botID).getD { ID := botID }) := by
  unfold ensureBot
  cases h : getBot bots botID with
  | none => simp [getBot_setBot_same]
  | some b => simp [h]

theorem getBot_ensureBot_other (bots : BotMap) (botID other : Int) (h : other ≠ botID) :
    getBot (ensureBot bots botID) other = getBot bots other := by
  unfold ensureBot
  cases hb : getBot bots botID with
  | none => simp [getBot_setBot_other _ _ _ _ h]
  | some b => simp

theorem sum_ensureBot (f : BotStats → Int) (bots : BotMap) (botID : Int)
    (hf : f { ID := botID } = 0) :
    ((ensureBot bots botID).map (fun p => f p.2)).sum = (bots.map (fun p => f p.2)).sum := by
  unfold ensureBot
  cases hb : getBot bots botID with
  | none => simp [sum_setBot, hb, hf]
  | some b => simp

theorem getBot_modifyBot_same (bots : BotMap) (botID : Int) (g : BotStats → BotStats) :
    getBot (modifyBot bots botID g) botID = (getBot bots botID).map g := by
  unfold modifyBot
  cases hb : getBot bots botID with
  | none => simp [hb]
  | some b => simp [getBot_setBot_same]

theorem getBot_modifyBot_other (bots : BotMap) (botID other : Int) (g : BotStats → BotStats)
    (h : other ≠ botID) : getBot (modifyBot bots botID g) other = getBot bots other := by
  unfold modifyBot
  cases hb : getBot bots botID with
  | none => simp
  | some b => simp [getBot_setBot_other _ _ _ _ h]

theorem sum_modifyBot (f : BotStats → Int) (bots : BotMap) (botID : Int)
    (g : BotStats → BotStats) :
    ((modifyBot bots botID g).map (fun p => f p.2)).sum =
      (bots.map (fun p => f p.2)).sum - ((getBot bots botID).map f).getD 0
        + ((getBot bots botID).map (fun b => f (g b))).getD 0 := by
  unfold modifyBot
  cases hb : getBot bots botID with
  | none => simp
  | some b => simp [sum_setBot, hb]

/-! ## Sum consistency of the metrics store -/

theorem UpdateGlobalMetrics_raw {F : Type} (fl : FloatOps F) (gs : GlobalStats F)
    (currentViews now : Int) :
    (UpdateGlobalMetrics fl gs currentViews now).TotalSuccessful = gs.TotalSuccessful ∧
    (UpdateGlobalMetrics fl gs currentViews now).TotalFailed = gs.TotalFailed ∧
    (UpdateGlobalMetrics fl gs currentViews now).Bots = gs.Bots ∧
    (UpdateGlobalMetrics fl gs currentViews now).ActiveBots = gs.ActiveBots ∧
    (UpdateGlobalMetrics fl gs currentViews now).FinishedBots = gs.FinishedBots ∧
    (UpdateGlobalMetrics fl gs currentViews now).InitialViews = gs.InitialViews ∧
    (UpdateGlobalMetrics fl gs currentViews now).TargetViews = gs.TargetViews ∧
    (UpdateGlobalMetrics fl gs currentViews now).StartTime = gs.StartTime ∧
    (UpdateGlobalMetrics fl gs currentViews now).ProxiesCount = gs.ProxiesCount ∧
    (UpdateGlobalMetrics fl gs currentViews now).CurrentViews = currentViews := by
  unfold UpdateGlobalMetrics updateEstimate updateViewRates updateSuccessRate
  simp only []
  split_ifs <;> simp

theorem SumConsistent_applyOp {F : Type} (fl : FloatOps F) (gs : GlobalStats F) (op : Op)
    (h : SumConsistent gs) : SumConsistent (applyOp fl gs op) := by
  obtain ⟨hs, hf⟩ := h
  cases op with
  | UpdateBotStats botID successful failed status lastError =>
    simp only [applyOp, UpdateBotStats, SumConsistent, sumSuccessful, sumFailed, sum_setBot,
      getBot_ensureBot_same, Option.getD_some, Option.map_some']
    rw [sum_ensureBot _ _ _ rfl, sum_ensureBot _ _ _ rfl]
    simp only [sumSuccessful, sumFailed] at hs hf
    constructor <;> omega
  | IncrementSuccess botID =>
    simp only [applyOp, IncrementSuccess, SumConsistent, sumSuccessful, sumFailed,
      sum_modifyBot, getBot_ensureBot_same, Option.getD_some, Option.map_some']
    rw [sum_ensureBot _ _ _ rfl, sum_ensureBot _ _ _ rfl]
    simp only [sumSuccessful, sumFailed] at hs hf
    constructor <;> omega
  | IncrementFailed botID error =>
    simp only [applyOp, IncrementFailed, SumConsistent, sumSuccessful, sumFailed,
      sum_modifyBot, getBot_ensureBot_same, Option.getD_some, Option.map_some']
    rw [sum_ensureBot _ _ _ rfl, sum_ensureBot _ _ _ rfl]
    simp only [sumSuccessful, sumFailed] at hs hf
    constructor <;> omega
  | UpdateBotStatus botID status =>
    simp only [applyOp, UpdateBotStatus, SumConsistent, sumSuccessful, sumFailed,
      sum_modifyBot, getBot_ensureBot_same, Option.getD_some, Option.map_some']
    rw [sum_ensureBot _ _ _ rfl, sum_ensureBot _ _ _ rfl]
    simp only [sumSuccessful, sumFailed] at hs hf
    constructor <;> omega
  | SetActiveBot botID =>
    simp only [applyOp, SetActiveBot, SumConsistent, sumSuccessful, sumFailed]
    rw [sum_ensureBot _ _ _ rfl, sum_ensureBot _ _ _ rfl]
    exact ⟨hs, hf⟩
  | SetFinishedBot botID =>
    simp only [applyOp, SetFinishedBot, SumConsistent, sumSuccessful, sumFailed, sum_modifyBot]
    simp only [sumSuccessful, sumFailed] at hs hf
    cases hb : getBot gs.Bots botID <;> simp <;> constructor <;> omega
  | UpdateGlobalMetrics currentViews now =>
    obtain ⟨h1, h2, h3, _⟩ := UpdateGlobalMetrics_raw fl gs currentViews now
    simp only [applyOp, SumConsistent, h1, h2, h3]
    exact ⟨hs, hf⟩

theorem SumConsistent_applyOps {F : Type} (fl : FloatOps F) (ops : List Op) :
    ∀ gs : GlobalStats F, SumConsistent gs → SumConsistent (applyOps fl gs ops) := by
  induction ops with
  | nil => intro gs h; exact h
  | cons op rest ih =>
    intro gs h
    exact ih (applyOp fl gs op) (SumConsistent_applyOp fl gs op h)

/-- Claim C1: starting from a fresh store, after any finite sequence of store operations
with arbitrary arguments, `TotalSuccessful` is the sum of `Successful` over all worker
records and `TotalFailed` is the sum of `Failed` over all worker records. -/
theorem C1_sum_consistency {F : Type} (fl : FloatOps F) (ops : List Op) :
    (applyOps fl (NewGlobalStats fl) ops).TotalSuccessful
        = sumSuccessful (applyOps fl (NewGlobalStats fl) ops).Bots ∧
    (applyOps fl (NewGlobalStats fl) ops).TotalFailed
        = sumFailed (applyOps fl (NewGlobalStats fl) ops).Bots :=
  SumConsistent_applyOps fl ops (NewGlobalStats fl) ⟨rfl, rfl⟩

/-! ## Postconditions of the store operations -/

/-- Claim C8: `IncrementSuccess(w)` leaves a record for `w` (created with `ID = w` and
zero counters if it was absent) whose `Successful` is its previous value plus 1 and whose
other fields are unchanged, increases `TotalSuccessful` by exactly 1, and changes nothing
else: every other worker's record, `TotalFailed`, `ActiveBots`, `FinishedBots`, the other
raw fields and all derived fields are unchanged. -/
theorem C8_IncrementSuccess_post {F : Type} (gs : GlobalStats F) (w : Int) :
    getBot (IncrementSuccess gs w).Bots w
      = some { (getBot gs.Bots w).getD { ID := w } with
               Successful := ((getBot gs.Bots w).getD { ID := w }).Successful + 1 } ∧
    (getBot gs.Bots w = none →
      getBot (IncrementSuccess gs w).Bots w
        = some { ID := w, Successful := 1, Failed := 0, Status := "", LastError := "" }) ∧
    (IncrementSuccess gs w).TotalSuccessful = gs.TotalSuccessful + 1 ∧
    (∀ other : Int, other ≠ w →
      getBot (IncrementSuccess gs w).Bots other = getBot gs.Bots other) ∧
    (IncrementSuccess gs w).TotalFailed = gs.TotalFailed ∧
    (IncrementSuccess gs w).ActiveBots = gs.ActiveBots ∧
    (IncrementSuccess gs w).FinishedBots = gs.FinishedBots ∧
    (IncrementSuccess gs w).InitialViews = gs.InitialViews ∧
    (IncrementSuccess gs w).CurrentViews = gs.CurrentViews ∧
    (IncrementSuccess gs w).StartTime = gs.StartTime ∧
    (IncrementSuccess gs w).ProxiesCount = gs.ProxiesCount ∧
    (IncrementSuccess gs w).TargetViews = gs.TargetViews ∧
    (IncrementSuccess gs w).ViewsGained = gs.ViewsGained ∧
    (IncrementSuccess gs w).ViewsPerSecond = gs.ViewsPerSecond ∧
    (IncrementSuccess gs w).ViewsPerMinute = gs.ViewsPerMinute ∧
    (IncrementSuccess gs w).SuccessRate = gs.SuccessRate ∧
    (IncrementSuccess gs w).EstimatedTimeLeft = gs.EstimatedTimeLeft := by
  refine ⟨?_, ?_, rfl, ?_, rfl, rfl, rfl, rfl, rfl, rfl, rfl, rfl, rfl, rfl, rfl, rfl, rfl⟩
  · simp [IncrementSuccess, getBot_modifyBot_same, getBot_ensureBot_same]
  · intro h
    simp [IncrementSuccess, getBot_modifyBot_same, getBot_ensureBot_same, h]
  · intro other h
    simp [IncrementSuccess, getBot_modifyBot_other _ _ _ _ h, getBot_ensureBot_other _ _ _ h]

/-- Worked instance of C8: worker 1 has no record and worker 2 has one; after
`IncrementSuccess(1)` worker 1 has a fresh record with one success, `TotalSuccessful` is
1 and the record of worker 2 is as before. -/
theorem C8_IncrementSuccess_post_witness :
    getBot oneFailureStore.Bots 1 = none ∧
    getBot (IncrementSuccess oneFailureStore 1).Bots 1
      = some { ID := 1, Successful := 1, Failed := 0, Status := "", LastError := "" } ∧
    (IncrementSuccess oneFailureStore 1).TotalSuccessful = 1 ∧
    getBot (IncrementSuccess oneFailureStore 1).Bots 2
      = some { ID := 2, Successful := 0, Failed := 1, Status := "", LastError := "HTTP 500" } := by
  have h0 : getBot oneFailureStore.Bots 1 = none := by
    simp [oneFailureStore, IncrementFailed, NewGlobalStats, ensureBot, modifyBot, getBot,
      setBot]
  have h2 : getBot oneFailureStore.Bots 2
      = some { ID := 2, Successful := 0, Failed := 1, Status := "", LastError := "HTTP 500" } := by
    simp [oneFailureStore, IncrementFailed, NewGlobalStats, ensureBot, modifyBot, getBot,
      setBot]
  obtain ⟨_, p2, p3, p4, _⟩ := C8_IncrementSuccess_post oneFailureStore 1
  refine ⟨h0, p2 h0, ?_, ?_⟩
  · rw [p3]
    simp [oneFailureStore, IncrementFailed, NewGlobalStats]
  · rw [p4 2 (by decide), h2]

/-- Claim C9: `IncrementFailed(w, e)` leaves a record for `w` (created if absent) whose
`Failed` is its previous value plus 1 and whose `LastError` is `e`, increases
`TotalFailed` by exactly 1, and leaves the `Successful` of `w`, `TotalSuccessful` and
every other worker's record unchanged. -/
theorem C9_IncrementFailed_post {F : Type} (gs : GlobalStats F) (w : Int) (e : String) :
    getBot (IncrementFailed gs w e).Bots w
      = some { (getBot gs.Bots w).getD { ID := w } with
               Failed := ((getBot gs.Bots w).getD { ID := w }).Failed + 1
               LastError := e } ∧
    (getBot gs.Bots w = none →
      getBot (IncrementFailed gs w e).Bots w
        = some { ID := w, Successful := 0, Failed := 1, Status := "", LastError := e }) ∧
    (IncrementFailed gs w e).TotalFailed = gs.TotalFailed + 1 ∧
    (IncrementFailed gs w e).TotalSuccessful = gs.TotalSuccessful ∧
    (∀ other : Int, other ≠ w →
      getBot (IncrementFailed gs w e).Bots other = getBot gs.Bots other) := by
  refine ⟨?_, ?_, rfl, rfl, ?_⟩
  · simp [IncrementFailed, getBot_modifyBot_same, getBot_ensureBot_same]
  · intro h
    simp [IncrementFailed, getBot_modifyBot_same, getBot_ensureBot_same, h]
  · intro other h
    simp [IncrementFailed, getBot_modifyBot_other _ _ _ _ h, getBot_ensureBot_other _ _ _ h]

/-- Worked instance of C9: a second failure of worker 2 overwrites its `LastError`, and a
first failure of worker 1 creates its record. -/
theorem C9_IncrementFailed_post_witness :
    getBot (IncrementFailed oneFailureStore 2 "HTTP 429").Bots 2
      = some { ID := 2, Successful := 0, Failed := 2, Status := "", LastError := "HTTP 429" } ∧
    (IncrementFailed oneFailureStore 2 "HTTP 429").TotalFailed = 2 ∧
    getBot (IncrementFailed oneFailureStore 1 "HTTP 429").Bots 1
      = some { ID := 1, Successful := 0, Failed := 1, Status := "", LastError := "HTTP 429" } := by
  have h0 : getBot oneFailureStore.Bots 1 = none := by
    simp [oneFailureStore, IncrementFailed, NewGlobalStats, ensureBot, modifyBot, getBot,
      setBot]
  have h2 : getBot oneFailureStore.Bots 2
      = some { ID := 2, Successful := 0, Failed := 1, Status := "", LastError := "HTTP 500" } := by
    simp [oneFailureStore, IncrementFailed, NewGlobalStats, ensureBot, modifyBot, getBot,
      setBot]
  obtain ⟨p1, _, p3, _, _⟩ := C9_IncrementFailed_post oneFailureStore 2 "HTTP 429"
  obtain ⟨_, q2, _, _, _⟩ := C9_IncrementFailed_post oneFailureStore 1 "HTTP 429"
  refine ⟨?_, ?_, q2 h0⟩
  · rw [p1, h2]
    rfl
  · rw [p3]
    simp [oneFailureStore, IncrementFailed, NewGlobalStats]

/-- Claim C10, as stated, fails: on a fresh store `SetFinishedBot(1)` finds no record for
worker 1, creates none, and so stamps no status. -/
theorem C10_counterexample :
    getBot (SetFinishedBot (NewGlobalStats ratOps) 1).Bots 1 = none ∧
    ¬ ((getBot (SetFinishedBot (NewGlobalStats ratOps) 1).Bots 1).map (fun b => b.Status)
        = some "Finished") := by
  constructor <;> simp [SetFinishedBot, NewGlobalStats, modifyBot, getBot]

/-- Claim C10, amended: `SetActiveBot(w)` increases `ActiveBots` by exactly 1 and leaves
`FinishedBots` unchanged; `SetFinishedBot(w)` decreases `ActiveBots` by exactly 1,
increases `FinishedBots` by exactly 1 and stamps the status "Finished" on the record of
`w` when that record exists, creating none when it does not; neither operation changes
a total or the success or failure counter of any record. -/
theorem C10_active_finished_post {F : Type} (gs : GlobalStats F) (w : Int) :
    ((SetActiveBot gs w).ActiveBots = gs.ActiveBots + 1 ∧
     (SetActiveBot gs w).FinishedBots = gs.FinishedBots ∧
     (SetActiveBot gs w).TotalSuccessful = gs.TotalSuccessful ∧
     (SetActiveBot gs w).TotalFailed = gs.TotalFailed ∧
     getBot (SetActiveBot gs w).Bots w = some ((getBot gs.Bots w).getD { ID := w }) ∧
     (∀ other : Int, other ≠ w →
       getBot (SetActiveBot gs w).Bots other = getBot gs.Bots other)) ∧
    ((SetFinishedBot gs w).ActiveBots = gs.ActiveBots - 1 ∧
     (SetFinishedBot gs w).FinishedBots = gs.FinishedBots + 1 ∧
     (SetFinishedBot gs w).TotalSuccessful = gs.TotalSuccessful ∧
     (SetFinishedBot gs w).TotalFailed = gs.TotalFailed ∧
     getBot (SetFinishedBot gs w).Bots w
       = (getBot gs.Bots w).map (fun b => { b with Status := "Finished" }) ∧
     (∀ other : Int, other ≠ w →
       getBot (SetFinishedBot gs w).Bots other = getBot gs.Bots other)) := by
  refine ⟨⟨rfl, rfl, rfl, rfl, ?_, ?_⟩, ⟨rfl, rfl, rfl, rfl, ?_, ?_⟩⟩
  · simp [SetActiveBot, getBot_ensureBot_same]
  · intro other h
    simp [SetActiveBot, getBot_ensureBot_other _ _ _ h]
  · simp [SetFinishedBot, getBot_modifyBot_same]
  · intro other h
    simp [SetFinishedBot, getBot_modifyBot_other _ _ _ _ h]

/-- Worked instance of C10: `SetFinishedBot(2)` stamps the existing record of worker 2
and `SetFinishedBot(1)` creates no record for worker 1; both move the two counters. -/
theorem C10_active_finished_post_witness :
    getBot (SetFinishedBot oneFailureStore 2).Bots 2
      = some { ID := 2, Successful := 0, Failed := 1, Status := "Finished",
               LastError := "HTTP 500" } ∧
    getBot (SetFinishedBot oneFailureStore 1).Bots 1 = none ∧
    (SetFinishedBot oneFailureStore 1).ActiveBots = oneFailureStore.ActiveBots - 1 ∧
    (SetFinishedBot oneFailureStore 1).FinishedBots = oneFailureStore.FinishedBots + 1 ∧
    (SetActiveBot oneFailureStore 1).ActiveBots = oneFailureStore.ActiveBots + 1 := by
  have h0 : getBot oneFailureStore.Bots 1 = none := by
    simp [oneFailureStore, IncrementFailed, NewGlobalStats, ensureBot, modifyBot, getBot,
      setBot]
  have h2 : getBot oneFailureStore.Bots 2
      = some { ID := 2, Successful := 0, Failed := 1, Status := "", LastError := "HTTP 500" } := by
    simp [oneFailureStore, IncrementFailed, NewGlobalStats, ensureBot, modifyBot, getBot,
      setBot]
  obtain ⟨_, _, _, _, _, p5, _⟩ := C10_active_finished_post oneFailureStore 2
  obtain ⟨⟨a1, _⟩, q1, q2, _, _, q5, _⟩ := C10_active_finished_post oneFailureStore 1
  refine ⟨?_, ?_, q1, q2, a1⟩
  · rw [p5, h2]
    rfl
  · rw [q5, h0]
    rfl

/-! ## Counting the effect of store calls -/

theorem applyOps_append {F : Type} (fl : FloatOps F) (gs : GlobalStats F) (xs ys : List Op) :
    applyOps fl gs (xs ++ ys) = applyOps fl (applyOps fl gs xs) ys := by
  simp [applyOps, List.foldl_append]

theorem applyOps_cons {F : Type} (fl : FloatOps F) (gs : GlobalStats F) (op : Op)
    (ops : List Op) : applyOps fl gs (op :: ops) = applyOps fl (applyOp fl gs op) ops := rfl

theorem applyOp_ActiveBots {F : Type} (fl : FloatOps F) (gs : GlobalStats F) (op : Op) :
    (applyOp fl gs op).ActiveBots = gs.ActiveBots + activeDelta op := by
  cases op <;> simp [applyOp, activeDelta, UpdateBotStats, IncrementSuccess, IncrementFailed,
    UpdateBotStatus, SetActiveBot, SetFinishedBot, (UpdateGlobalMetrics_raw fl gs _ _).2.2.2.1]
  omega

theorem applyOp_FinishedBots {F : Type} (fl : FloatOps F) (gs : GlobalStats F) (op : Op) :
    (applyOp fl gs op).FinishedBots = gs.FinishedBots + finishedDelta op := by
  cases op <;> simp [applyOp, finishedDelta, UpdateBotStats, IncrementSuccess,
    IncrementFailed, UpdateBotStatus, SetActiveBot, SetFinishedBot,
    (UpdateGlobalMetrics_raw fl gs _ _).2.2.2.2.1]

theorem applyOp_TotalSuccessful {F : Type} (fl : FloatOps F) (gs : GlobalStats F) (op : Op)
    (h : isWorkerOp op = true) :
    (applyOp fl gs op).TotalSuccessful = gs.TotalSuccessful + successDelta op := by
  cases op <;> simp_all [applyOp, successDelta, isWorkerOp, IncrementSuccess,
    IncrementFailed, UpdateBotStatus, SetActiveBot, SetFinishedBot]

theorem applyOp_TotalFailed {F : Type} (fl : FloatOps F) (gs : GlobalStats F) (op : Op)
    (h : isWorkerOp op = true) :
    (applyOp fl gs op).TotalFailed = gs.TotalFailed + failedDelta op := by
  cases op <;> simp_all [applyOp, failedDelta, isWorkerOp, IncrementSuccess,
    IncrementFailed, UpdateBotStatus, SetActiveBot, SetFinishedBot]

theorem applyOps_ActiveBots {F : Type} (fl : FloatOps F) (ops : List Op) :
    ∀ gs : GlobalStats F,
      (applyOps fl gs ops).ActiveBots = gs.ActiveBots + (ops.map activeDelta).sum := by
  induction ops with
  | nil => intro gs; simp [applyOps]
  | cons op rest ih =>
    intro gs
    rw [applyOps_cons, ih, applyOp_ActiveBots]
    simp only [List.map_cons, List.sum_cons]
    omega

theorem applyOps_FinishedBots {F : Type} (fl : FloatOps F) (ops : List Op) :
    ∀ gs : GlobalStats F,
      (applyOps fl gs ops).FinishedBots = gs.FinishedBots + (ops.map finishedDelta).sum := by
  induction ops with
  | nil => intro gs; simp [applyOps]
  | cons op rest ih =>
    intro gs
    rw [applyOps_cons, ih, applyOp_FinishedBots]
    simp only [List.map_cons, List.sum_cons]
    omega

theorem applyOps_TotalSuccessful {F : Type} (fl : FloatOps F) (ops : List Op) :
    ∀ gs : GlobalStats F, (∀ op ∈ ops, isWorkerOp op = true) →
      (applyOps fl gs ops).TotalSuccessful
        = gs.TotalSuccessful + (ops.map successDelta).sum := by
  induction ops with
  | nil => intro gs _; simp [applyOps]
  | cons op rest ih =>
    intro gs h
    rw [applyOps_cons, ih _ (fun o ho => h o (List.mem_cons_of_mem _ ho)),
      applyOp_TotalSuccessful fl gs op (h op (List.mem_cons_self _ _))]
    simp only [List.map_cons, List.sum_cons]
    omega

theorem applyOps_TotalFailed {F : Type} (fl : FloatOps F) (ops : List Op) :
    ∀ gs : GlobalStats F, (∀ op ∈ ops, isWorkerOp op = true) →
      (applyOps fl gs ops).TotalFailed = gs.TotalFailed + (ops.map failedDelta).sum := by
  induction ops with
  | nil => intro gs _; simp [applyOps]
  | cons op rest ih =>
    intro gs h
    rw [applyOps_cons, ih _ (fun o ho => h o (List.mem_cons_of_mem _ ho)),
      applyOp_TotalFailed fl gs op (h op (List.mem_cons_self _ _))]
    simp only [List.map_cons, List.sum_cons]
    omega

/-! ## The calls issued by one worker -/

theorem runBotLoop_isLoopOp (obs : Int → Observation) (botID viewsPerBot : Int) :
    ∀ (n : Nat) (viewNum : Int), (viewsPerBot + 1 - viewNum).toNat = n →
      ∀ op ∈ runBotLoop obs botID viewsPerBot viewNum, isLoopOp botID op = true := by
  intro n
  induction n with
  | zero =>
    intro viewNum hn op hop
    rw [runBotLoop, if_neg (by omega)] at hop
    simp at hop
    simp [hop, isLoopOp]
  | succ n ih =>
    intro viewNum hn op hop
    rw [runBotLoop, if_pos (by omega)] at hop
    by_cases hc : (obs viewNum).cancelAtTop = true
    · simp [hc] at hop
      simp [hop, isLoopOp]
    · simp only [hc, Bool.false_eq_true, if_false, List.mem_cons] at hop
      rcases hop with hop | hop | hop
      · simp [hop, isLoopOp]
      · cases he : (obs viewNum).err <;> simp [he] at hop <;> simp [hop, isLoopOp]
      · by_cases hw : (obs viewNum).cancelInWait = true
        · simp [hw] at hop
          simp [hop, isLoopOp]
        · simp only [hw, Bool.false_eq_true, if_false] at hop
          exact ih (viewNum + 1) (by omega) op hop

theorem runBotLoop_loopOps (obs : Int → Observation) (botID viewsPerBot viewNum : Int) :
    ∀ op ∈ runBotLoop obs botID viewsPerBot viewNum, isLoopOp botID op = true :=
  runBotLoop_isLoopOp obs botID viewsPerBot _ viewNum rfl

theorem isLoopOp_facts (botID : Int) (op : Op) (h : isLoopOp botID op = true) :
    activeDelta op = 0 ∧ finishedDelta op = 0 ∧ isSetActive op = false ∧
    isSetFinished op = false ∧ isWorkerOp op = true := by
  cases op <;> simp_all [isLoopOp, activeDelta, finishedDelta, isSetActive, isSetFinished,
    isWorkerOp]

theorem sum_map_eq_zero (f : Op → Int) (ops : List Op) (h : ∀ op ∈ ops, f op = 0) :
    (ops.map f).sum = 0 := by
  induction ops with
  | nil => simp
  | cons op rest ih =>
    simp only [List.map_cons, List.sum_cons]
    rw [h op (List.mem_cons_self _ _), ih (fun o ho => h o (List.mem_cons_of_mem _ ho))]
    rfl

theorem filter_eq_nil_of_false (p : Op → Bool) (ops : List Op)
    (h : ∀ op ∈ ops, p op = false) : ops.filter p = [] := by
  induction ops with
  | nil => rfl
  | cons op rest ih =>
    rw [List.filter_cons, h op (List.mem_cons_self _ _)]
    simpa using ih (fun o ho => h o (List.mem_cons_of_mem _ ho))

theorem runBot_activeDelta (obs : Int → Observation) (botID viewsPerBot : Int) :
    ((runBot obs botID viewsPerBot).map activeDelta).sum = 0 := by
  have h := sum_map_eq_zero activeDelta (runBotLoop obs botID viewsPerBot 1)
    (fun op hop => (isLoopOp_facts botID op (runBotLoop_loopOps obs botID viewsPerBot 1 op hop)).1)
  simp [runBot, h, activeDelta]

theorem runBot_finishedDelta (obs : Int → Observation) (botID viewsPerBot : Int) :
    ((runBot obs botID viewsPerBot).map finishedDelta).sum = 1 := by
  have h := sum_map_eq_zero finishedDelta (runBotLoop obs botID viewsPerBot 1)
    (fun op hop =>
      (isLoopOp_facts botID op (runBotLoop_loopOps obs botID viewsPerBot 1 op hop)).2.1)
  simp [runBot, h, finishedDelta]

theorem runBot_isWorkerOp (obs : Int → Observation) (botID viewsPerBot : Int) :
    ∀ op ∈ runBot obs botID viewsPerBot, isWorkerOp op = true := by
  intro op hop
  simp only [runBot, List.mem_cons, List.mem_append, List.mem_singleton] at hop
  rcases hop with hop | hop | hop
  · simp [hop, isWorkerOp]
  · exact (isLoopOp_facts botID op (runBotLoop_loopOps obs botID viewsPerBot 1 op hop)).2.2.2.2
  · rcases hop with hop | hop
    · simp [hop, isWorkerOp]
    · simp at hop

/-- Claim C3: for every worker run, with any `ViewsPerBot`, any outcomes and any
observation of cancellation (at a loop-top check, during a delay wait, or never), the run
issues exactly one `SetActiveBot` and exactly one `SetFinishedBot`, both for its own
identity, the first as its first store call and the second as its last; after the run
`FinishedBots` has increased by exactly 1 and `ActiveBots` is back to its value before
the run. -/
theorem C3_markFinished_exactly_once {F : Type} (fl : FloatOps F) (gs : GlobalStats F)
    (obs : Int → Observation) (botID viewsPerBot : Int) :
    (runBot obs botID viewsPerBot).filter isSetActive = [Op.SetActiveBot botID] ∧
    (runBot obs botID viewsPerBot).filter isSetFinished = [Op.SetFinishedBot botID] ∧
    (runBot obs botID viewsPerBot).head? = some (Op.SetActiveBot botID) ∧
    (runBot obs botID viewsPerBot).getLast? = some (Op.SetFinishedBot botID) ∧
    (applyOps fl gs (runBot obs botID viewsPerBot)).FinishedBots = gs.FinishedBots + 1 ∧
    (applyOps fl gs (runBot obs botID viewsPerBot)).ActiveBots = gs.ActiveBots := by
  have hA := filter_eq_nil_of_false isSetActive (runBotLoop obs botID viewsPerBot 1)
    (fun op hop =>
      (isLoopOp_facts botID op (runBotLoop_loopOps obs botID viewsPerBot 1 op hop)).2.2.1)
  have hF := filter_eq_nil_of_false isSetFinished (runBotLoop obs botID viewsPerBot 1)
    (fun op hop =>
      (isLoopOp_facts botID op (runBotLoop_loopOps obs botID viewsPerBot 1 op hop)).2.2.2.1)
  refine ⟨?_, ?_, ?_, ?_, ?_, ?_⟩
  · simp [runBot, List.filter_cons, List.filter_append, hA, isSetActive]
  · simp [runBot, List.filter_cons, List.filter_append, hF, isSetFinished]
  · simp [runBot]
  · simp [runBot, List.getLast?_cons, List.getLast?_append]
  · rw [applyOps_FinishedBots, runBot_finishedDelta]
  · rw [applyOps_ActiveBots, runBot_activeDelta]
    omega

/-! ## The status a worker ends with -/

theorem getBot_isSome_applyOp {F : Type} (fl : FloatOps F) (gs : GlobalStats F) (op : Op)
    (botID : Int) (h : (getBot gs.Bots botID).isSome = true) :
    (getBot (applyOp fl gs op).Bots botID).isSome = true := by
  cases op with
  | UpdateBotStats b successful failed status lastError =>
    by_cases hb : botID = b
    · subst hb
      simp [applyOp, UpdateBotStats, getBot_setBot_same]
    · simpa [applyOp, UpdateBotStats, getBot_setBot_other _ _ _ _ hb,
        getBot_ensureBot_other _ _ _ hb] using h
  | IncrementSuccess b =>
    by_cases hb : botID = b
    · subst hb
      simp [applyOp, IncrementSuccess, getBot_modifyBot_same, getBot_ensureBot_same]
    · simpa [applyOp, IncrementSuccess, getBot_modifyBot_other _ _ _ _ hb,
        getBot_ensureBot_other _ _ _ hb] using h
  | IncrementFailed b error =>
    by_cases hb : botID = b
    · subst hb
      simp [applyOp, IncrementFailed, getBot_modifyBot_same, getBot_ensureBot_same]
    · simpa [applyOp, IncrementFailed, getBot_modifyBot_other _ _ _ _ hb,
        getBot_ensureBot_other _ _ _ hb] using h
  | UpdateBotStatus b status =>
    by_cases hb : botID = b
    · subst hb
      simp [applyOp, UpdateBotStatus, getBot_modifyBot_same, getBot_ensureBot_same]
    · simpa [applyOp, UpdateBotStatus, getBot_modifyBot_other _ _ _ _ hb,
        getBot_ensureBot_other _ _ _ hb] using h
  | SetActiveBot b =>
    by_cases hb : botID = b
    · subst hb
      simp [applyOp, SetActiveBot, getBot_ensureBot_same]
    · simpa [applyOp, SetActiveBot, getBot_ensureBot_other _ _ _ hb] using h
  | SetFinishedBot b =>
    by_cases hb : botID = b
    · subst hb
      simpa [applyOp, SetFinishedBot, getBot_modifyBot_same] using h
    · simpa [applyOp, SetFinishedBot, getBot_modifyBot_other _ _ _ _ hb] using h
  | UpdateGlobalMetrics currentViews now =>
    simpa [applyOp, (UpdateGlobalMetrics_raw fl gs currentViews now).2.2.1] using h

theorem getBot_isSome_applyOps {F : Type} (fl : FloatOps F) (ops : List Op) (botID : Int) :
    ∀ gs : GlobalStats F, (getBot gs.Bots botID).isSome = true →
      (getBot (applyOps fl gs ops).Bots botID).isSome = true := by
  induction ops with
  | nil => intro gs h; exact h
  | cons op rest ih =>
    intro gs h
    exact ih _ (getBot_isSome_applyOp fl gs op botID h)

/-- Whatever a worker observes, its record carries the status "Finished" once `runBot`
has returned: the deferred `SetFinishedBot` is the last store call and finds the record
that `SetActiveBot` created. -/
theorem runBot_final_status {F : Type} (fl : FloatOps F) (gs : GlobalStats F)
    (obs : Int → Observation) (botID viewsPerBot : Int) :
    (getBot (applyOps fl gs (runBot obs botID viewsPerBot)).Bots botID).map
      (fun b => b.Status) = some "Finished" := by
  have h1 : (getBot (applyOp fl gs (Op.SetActiveBot botID)).Bots botID).isSome = true := by
    simp [applyOp, SetActiveBot, getBot_ensureBot_same]
  have h2 := getBot_isSome_applyOps fl (runBotLoop obs botID viewsPerBot 1) botID _ h1
  rw [runBot, applyOps_cons, applyOps_append]
  simp only [applyOps, List.foldl_cons, List.foldl_nil, applyOp, SetFinishedBot,
    getBot_modifyBot_same]
  simp only [applyOps, applyOp] at h2
  cases hb : getBot (List.foldl (applyOp fl) (SetActiveBot gs botID)
      (runBotLoop obs botID viewsPerBot 1)).Bots botID with
  | none => simp [applyOp, hb] at h2
  | some b => simp

/-- Claim C4 on the code: a worker that finds the context cancelled at its first loop-top
check issues `SetActiveBot`, `UpdateBotStatus "Stopped"` and the deferred
`SetFinishedBot`; its status is "Stopped" before the deferred call and "Finished" after
`runBot` has returned. -/
theorem C4_cancelled_worker_ends_finished :
    runBot cancelledAtOnce 1 2
      = [Op.SetActiveBot 1, Op.UpdateBotStatus 1 "Stopped", Op.SetFinishedBot 1] ∧
    (getBot (applyOps ratOps (NewGlobalStats ratOps)
        [Op.SetActiveBot 1, Op.UpdateBotStatus 1 "Stopped"]).Bots 1).map
      (fun b => b.Status) = some "Stopped" ∧
    (getBot (applyOps ratOps (NewGlobalStats ratOps) (runBot cancelledAtOnce 1 2)).Bots 1).map
      (fun b => b.Status) = some "Finished" ∧
    (getBot (applyOps ratOps (NewGlobalStats ratOps) (runBot cancelledAtOnce 1 2)).Bots 1).map
      (fun b => b.Status) ≠ some "Stopped" := by
  have hrun : runBot cancelledAtOnce 1 2
      = [Op.SetActiveBot 1, Op.UpdateBotStatus 1 "Stopped", Op.SetFinishedBot 1] := by
    simp [runBot, runBotLoop, cancelledAtOnce]
  refine ⟨hrun, ?_, ?_, ?_⟩
  · simp [applyOps, applyOp, NewGlobalStats, SetActiveBot, UpdateBotStatus, ensureBot,
      modifyBot, getBot, setBot]
  · rw [hrun]
    simp [applyOps, applyOp, NewGlobalStats, SetActiveBot, UpdateBotStatus, SetFinishedBot,
      ensureBot, modifyBot, getBot, setBot]
  · rw [hrun]
    simp [applyOps, applyOp, NewGlobalStats, SetActiveBot, UpdateBotStatus, SetFinishedBot,
      ensureBot, modifyBot, getBot, setBot]

/-! ## Natural completion of a run -/

/-- A worker that never observes cancellation performs every remaining iteration, and
each iteration records exactly one outcome. -/
theorem runBotLoop_outcomes (obs : Int → Observation) (botID viewsPerBot : Int)
    (hno : ∀ k, (obs k).cancelAtTop = false ∧ (obs k).cancelInWait = false) :
    ∀ (n : Nat) (viewNum : Int), (viewsPerBot + 1 - viewNum).toNat = n →
      ((runBotLoop obs botID viewsPerBot viewNum).map successDelta).sum
        + ((runBotLoop obs botID viewsPerBot viewNum).map failedDelta).sum = n ∧
      ((∀ k, (obs k).err = none) →
        ((runBotLoop obs botID viewsPerBot viewNum).map successDelta).sum = n ∧
        ((runBotLoop obs botID viewsPerBot viewNum).map failedDelta).sum = 0) := by
  intro n
  induction n with
  | zero =>
    intro viewNum hn
    rw [runBotLoop, if_neg (by omega)]
    simp [successDelta, failedDelta]
  | succ n ih =>
    intro viewNum hn
    obtain ⟨ih1, ih2⟩ := ih (viewNum + 1) (by omega)
    rw [runBotLoop, if_pos (by omega)]
    simp only [(hno viewNum).1, (hno viewNum).2, Bool.false_eq_true, if_false, List.map_cons,
      List.sum_cons]
    constructor
    · cases he : (obs viewNum).err <;> simp [successDelta, failedDelta] <;> omega
    · intro hall
      obtain ⟨ih3, ih4⟩ := ih2 hall
      simp [hall viewNum, successDelta, failedDelta, ih3, ih4]
      omega

theorem runBot_outcomes (obs : Int → Observation) (botID viewsPerBot : Int)
    (hM : 0 ≤ viewsPerBot)
    (hno : ∀ k, (obs k).cancelAtTop = false ∧ (obs k).cancelInWait = false) :
    ((runBot obs botID viewsPerBot).map successDelta).sum
      + ((runBot obs botID viewsPerBot).map failedDelta).sum = viewsPerBot ∧
    ((∀ k, (obs k).err = none) →
      ((runBot obs botID viewsPerBot).map successDelta).sum = viewsPerBot ∧
      ((runBot obs botID viewsPerBot).map failedDelta).sum = 0) := by
  obtain ⟨h1, h2⟩ := runBotLoop_outcomes obs botID viewsPerBot hno _ 1 rfl
  have hn : (((viewsPerBot + 1 - 1).toNat : Nat) : Int) = viewsPerBot := by omega
  constructor
  · simp only [runBot, List.map_cons, List.map_append, List.sum_cons, List.sum_append,
      List.map_nil, List.sum_nil, successDelta, failedDelta]
    omega
  · intro hall
    obtain ⟨h3, h4⟩ := h2 hall
    simp only [runBot, List.map_cons, List.map_append, List.sum_cons, List.sum_append,
      List.map_nil, List.sum_nil, successDelta, failedDelta]
    constructor <;> omega

theorem sumOver_cons (f : Op → Int) (t : List Op) (ts : List (List Op)) :
    sumOver f (t :: ts) = (t.map f).sum + sumOver f ts := by
  simp [sumOver]

theorem sumOver_append (f : Op → Int) (xs ys : List (List Op)) :
    sumOver f (xs ++ ys) = sumOver f xs + sumOver f ys := by
  simp [sumOver]

theorem Interleaving.sum_map (f : Op → Int) {ts : List (List Op)} {sched : List Op}
    (h : Interleaving ts sched) : (sched.map f).sum = sumOver f ts := by
  induction h with
  | done ts hts =>
    induction ts with
    | nil => simp [sumOver]
    | cons t rest ih =>
      rw [sumOver_cons, hts t (List.mem_cons_self _ _),
        ← ih (fun u hu => hts u (List.mem_cons_of_mem _ hu))]
      simp
  | step pre post op rest sched _ ih =>
    simp only [List.map_cons, List.sum_cons, ih, sumOver_append, sumOver_cons]
    omega

theorem Interleaving.forall_mem (p : Op → Prop) {ts : List (List Op)} {sched : List Op}
    (h : Interleaving ts sched) (hp : ∀ t ∈ ts, ∀ op ∈ t, p op) : ∀ op ∈ sched, p op := by
  induction h with
  | done ts _ => intro op hop; simp at hop
  | step pre post op rest sched _ ih =>
    intro o ho
    rcases List.mem_cons.1 ho with ho | ho
    · subst ho
      exact hp (o :: rest) (by simp) o (List.mem_cons_self _ _)
    · refine ih ?_ o ho
      intro t ht x hx
      rcases List.mem_append.1 ht with ht | ht
      · exact hp t (List.mem_append_left _ ht) x hx
      · rcases List.mem_cons.1 ht with ht | ht
        · rw [ht] at hx
          exact hp (op :: rest) (by simp) x (List.mem_cons_of_mem _ hx)
        · exact hp t (List.mem_append_right _ (List.mem_cons_of_mem _ ht)) x hx

theorem Interleaving.cons_nil {ts : List (List Op)} {sched : List Op}
    (h : Interleaving ts sched) : Interleaving ([] :: ts) sched := by
  induction h with
  | done ts hts =>
    refine Interleaving.done _ ?_
    intro t ht
    rcases List.mem_cons.1 ht with ht | ht
    · exact ht
    · exact hts t ht
  | step pre post op rest sched _ ih =>
    exact Interleaving.step ([] :: pre) post op rest sched ih

/-- Running the workers one after the other is one of the schedules. -/
theorem Interleaving.sequential (ts : List (List Op)) : Interleaving ts ts.flatten := by
  induction ts with
  | nil => exact Interleaving.done [] (by simp)
  | cons t rest ih =>
    induction t with
    | nil => simpa using Interleaving.cons_nil ih
    | cons op ops iht =>
      have := Interleaving.step [] rest op ops (ops ++ rest.flatten) (by simpa using iht)
      simpa using this

theorem launchBots_bookkeeping (obs : Int → Int → Observation) (botCount viewsPerBot : Int) :
    ∀ (n : Nat) (i : Int), (botCount + 1 - i).toNat = n →
      sumOver finishedDelta (launchBots obs botCount viewsPerBot i) = n ∧
      sumOver activeDelta (launchBots obs botCount viewsPerBot i) = 0 ∧
      (∀ t ∈ launchBots obs botCount viewsPerBot i, ∀ op ∈ t, isWorkerOp op = true) := by
  intro n
  induction n with
  | zero =>
    intro i hn
    rw [launchBots, if_neg (by omega)]
    simp [sumOver]
  | succ n ih =>
    intro i hn
    obtain ⟨ih1, ih2, ih3⟩ := ih (i + 1) (by omega)
    rw [launchBots, if_pos (by omega)]
    refine ⟨?_, ?_, ?_⟩
    · rw [sumOver_cons, runBot_finishedDelta, ih1]
      push_cast
      omega
    · rw [sumOver_cons, runBot_activeDelta, ih2]
      rfl
    · intro t ht op hop
      rcases List.mem_cons.1 ht with ht | ht
      · subst ht
        exact runBot_isWorkerOp (obs i) i viewsPerBot op hop
      · exact ih3 t ht op hop

theorem launchBots_outcomes (obs : Int → Int → Observation) (botCount viewsPerBot : Int)
    (hM : 0 ≤ viewsPerBot)
    (hno : ∀ i k, (obs i k).cancelAtTop = false ∧ (obs i k).cancelInWait = false) :
    ∀ (n : Nat) (i : Int), (botCount + 1 - i).toNat = n →
      sumOver successDelta (launchBots obs botCount viewsPerBot i)
        + sumOver failedDelta (launchBots obs botCount viewsPerBot i) = n * viewsPerBot ∧
      ((∀ i k, (obs i k).err = none) →
        sumOver successDelta (launchBots obs botCount viewsPerBot i) = n * viewsPerBot ∧
        sumOver failedDelta (launchBots obs botCount viewsPerBot i) = 0) := by
  intro n
  induction n with
  | zero =>
    intro i hn
    rw [launchBots, if_neg (by omega)]
    simp [sumOver]
  | succ n ih =>
    intro i hn
    obtain ⟨ih1, ih2⟩ := ih (i + 1) (by omega)
    obtain ⟨h1, h2⟩ := runBot_outcomes (obs i) i viewsPerBot hM (hno i)
    rw [launchBots, if_pos (by omega)]
    simp only [sumOver_cons]
    have hc : (((n + 1 : Nat) : Int)) * viewsPerBot = n * viewsPerBot + viewsPerBot := by
      push_cast
      ring
    constructor
    · rw [hc]
      linarith
    · intro hall
      obtain ⟨h3, h4⟩ := h2 (hall i)
      obtain ⟨ih3, ih4⟩ := ih2 hall
      rw [hc]
      constructor <;> linarith

/-- Claim C2: for every worker count `N > 0`, every `M > 0` operations per worker and
every assignment of outcomes to the executor calls, if no worker ever observes
cancellation then `StartBots`, called on a store whose counters are zero, returns, and in
every store it can return with (any interleaving of the workers' store calls)
`FinishedBots = N`, `ActiveBots = 0` and `TotalSuccessful + TotalFailed = N * M`; when
every operation succeeds, `TotalSuccessful = N * M` and `TotalFailed = 0` (so 6, 0 and
`FinishedBots = 3` for `N = 3`, `M = 2`). -/
theorem C2_natural_completion {F : Type} (fl : FloatOps F) (obs : Int → Int → Observation)
    (N M : Int) (hN : 0 < N) (hM : 0 < M)
    (hno : ∀ i k, (obs i k).cancelAtTop = false ∧ (obs i k).cancelInWait = false)
    (gs : GlobalStats F) (now : Int)
    (hzero : gs.TotalSuccessful = 0 ∧ gs.TotalFailed = 0 ∧ gs.ActiveBots = 0 ∧
      gs.FinishedBots = 0) :
    (∃ gs1, StartBotsReturns fl obs N M gs now gs1) ∧
    ∀ gs1, StartBotsReturns fl obs N M gs now gs1 →
      gs1.FinishedBots = N ∧ gs1.ActiveBots = 0 ∧
      gs1.TotalSuccessful + gs1.TotalFailed = N * M ∧
      ((∀ i k, (obs i k).err = none) → gs1.TotalSuccessful = N * M ∧ gs1.TotalFailed = 0) := by
  obtain ⟨hs, hf, ha, hfin⟩ := hzero
  constructor
  · exact ⟨_, (launchBots obs N M 1).flatten, Interleaving.sequential _, rfl⟩
  · rintro gs1 ⟨sched, hI, rfl⟩
    obtain ⟨b1, b2, b3⟩ := launchBots_bookkeeping obs N M _ 1 rfl
    obtain ⟨o1, o2⟩ := launchBots_outcomes obs N M (le_of_lt hM) hno _ 1 rfl
    have hw : ∀ op ∈ sched, isWorkerOp op = true :=
      Interleaving.forall_mem (fun op => isWorkerOp op = true) hI b3
    have hn : (((N + 1 - 1).toNat : Nat) : Int) = N := by omega
    rw [hn] at b1 o1 o2
    rw [applyOps_FinishedBots, applyOps_ActiveBots, applyOps_TotalSuccessful fl sched _ hw,
      applyOps_TotalFailed fl sched _ hw, hI.sum_map finishedDelta, hI.sum_map activeDelta,
      hI.sum_map successDelta, hI.sum_map failedDelta]
    simp only [hs, hf, ha, hfin, b1, b2]
    refine ⟨by omega, by omega, by linarith, ?_⟩
    intro hall
    obtain ⟨o3, o4⟩ := o2 hall
    constructor <;> linarith

/-- Worked instance of C2: three workers, two operations each, all succeeding, run one
after the other. -/
theorem C2_natural_completion_witness :
    (0 : Int) < 3 ∧ (0 : Int) < 2 ∧
    (applyOps ratOps { NewGlobalStats ratOps with StartTime := 7 }
      (launchBots allSucceed 3 2 1).flatten).TotalSuccessful = 6 ∧
    (applyOps ratOps { NewGlobalStats ratOps with StartTime := 7 }
      (launchBots allSucceed 3 2 1).flatten).TotalFailed = 0 ∧
    (applyOps ratOps { NewGlobalStats ratOps with StartTime := 7 }
      (launchBots allSucceed 3 2 1).flatten).FinishedBots = 3 ∧
    (applyOps ratOps { NewGlobalStats ratOps with StartTime := 7 }
      (launchBots allSucceed 3 2 1).flatten).ActiveBots = 0 := by
  have h := (C2_natural_completion ratOps allSucceed 3 2 (by decide) (by decide)
    (fun _ _ => ⟨rfl, rfl⟩) (NewGlobalStats ratOps) 7 ⟨rfl, rfl, rfl, rfl⟩).2 _
    ⟨(launchBots allSucceed 3 2 1).flatten, Interleaving.sequential _, rfl⟩
  obtain ⟨h1, h2, _, h4⟩ := h
  obtain ⟨h5, h6⟩ := h4 (fun _ _ => rfl)
  exact ⟨by decide, by decide, by simpa using h5, h6, h1, h2⟩

/-! ## Derived metrics (`UpdateGlobalMetrics`) -/

theorem polledStore_eq :
    polledStore = { startedStore with
      CurrentViews := 110, ViewsGained := 10, ViewsPerSecond := 1, ViewsPerMinute := 60,
      EstimatedTimeLeft := 10000000000 } := by
  have h1 : Int.tdiv 10000000000 1000000000 = 10 := by decide
  have h2 : Int.tmod 10000000000 1000000000 = 0 := by decide
  have h3 : wrap64 10000000000 = 10000000000 := by decide
  simp [polledStore, startedStore, UpdateGlobalMetrics, updateEstimate, updateViewRates,
    updateSuccessRate, NewGlobalStats, ratOps,
    durationSeconds, h1, h2, h3]

/-- Claim C5, as stated, fails: thirteen seconds into the run, after one successful
operation, a poll that reads the counter value 0 changes `SuccessRate` from 0 to 100 and
`EstimatedTimeLeft` from 10 s to 9 s. -/
theorem C5_counterexample :
    ((IncrementSuccess polledStore 1).SuccessRate = 0 ∧
     (UpdateGlobalMetrics ratOps (IncrementSuccess polledStore 1) 0 13000000000).SuccessRate
       = 100 ∧
     (IncrementSuccess polledStore 1).EstimatedTimeLeft = 10000000000 ∧
     (UpdateGlobalMetrics ratOps (IncrementSuccess polledStore 1) 0
       13000000000).EstimatedTimeLeft = 9000000000) ∧
    (UpdateGlobalMetrics ratOps (IncrementSuccess polledStore 1) 0 13000000000).SuccessRate
      ≠ (IncrementSuccess polledStore 1).SuccessRate ∧
    (UpdateGlobalMetrics ratOps (IncrementSuccess polledStore 1) 0
      13000000000).EstimatedTimeLeft ≠ (IncrementSuccess polledStore 1).EstimatedTimeLeft := by
  have h1 : Int.tdiv 13000000000 1000000000 = 13 := by decide
  have h2 : Int.tmod 13000000000 1000000000 = 0 := by decide
  have h : (IncrementSuccess polledStore 1).SuccessRate = 0 ∧
      (UpdateGlobalMetrics ratOps (IncrementSuccess polledStore 1) 0 13000000000).SuccessRate
        = 100 ∧
      (IncrementSuccess polledStore 1).EstimatedTimeLeft = 10000000000 ∧
      (UpdateGlobalMetrics ratOps (IncrementSuccess polledStore 1) 0
        13000000000).EstimatedTimeLeft = 9000000000 := by
    rw [polledStore_eq]
    refine ⟨?_, ?_, ?_, ?_⟩ <;>
      simp [startedStore, IncrementSuccess, UpdateGlobalMetrics, updateEstimate,
        updateViewRates, updateSuccessRate, NewGlobalStats, ratOps,
        durationSeconds, h1, h2, wrap64_eq_self]
  refine ⟨h, ?_, ?_⟩
  · rw [h.1, h.2.1]
    norm_num
  · rw [h.2.2.1, h.2.2.2]
    decide

theorem updateSuccessRate_eq {F : Type} (fl : FloatOps F) (gs : GlobalStats F) :
    updateSuccessRate fl gs = { gs with
      SuccessRate :=
        if gs.TotalSuccessful + gs.TotalFailed > 0 then
          fl.mul (fl.div (fl.ofInt gs.TotalSuccessful)
            (fl.ofInt (gs.TotalSuccessful + gs.TotalFailed))) (fl.ofInt 100)
        else gs.SuccessRate } := by
  unfold updateSuccessRate
  simp only []
  split_ifs <;> rfl

theorem updateViewRates_eq {F : Type} (fl : FloatOps F) (gs : GlobalStats F) (runtime : Int) :
    updateViewRates fl gs runtime = { gs with
      ViewsGained :=
        if gs.CurrentViews > 0 ∧ gs.InitialViews > 0 then gs.CurrentViews - gs.InitialViews
        else gs.ViewsGained
      ViewsPerSecond :=
        if (gs.CurrentViews > 0 ∧ gs.InitialViews > 0) ∧
            fl.isPos (durationSeconds fl runtime) = true then
          fl.div (fl.ofInt (gs.CurrentViews - gs.InitialViews)) (durationSeconds fl runtime)
        else gs.ViewsPerSecond
      ViewsPerMinute :=
        if (gs.CurrentViews > 0 ∧ gs.InitialViews > 0) ∧
            fl.isPos (durationSeconds fl runtime) = true then
          fl.mul (fl.div (fl.ofInt (gs.CurrentViews - gs.InitialViews))
            (durationSeconds fl runtime)) (fl.ofInt 60)
        else gs.ViewsPerMinute } := by
  unfold updateViewRates
  simp only []
  by_cases h1 : gs.CurrentViews > 0 ∧ gs.InitialViews > 0
  · by_cases h2 : fl.isPos (durationSeconds fl runtime) = true
    · simp [h1, h2]
    · simp [h1, h2]
  · simp [h1]

theorem updateEstimate_eq {F : Type} (fl : FloatOps F) (gs : GlobalStats F) :
    updateEstimate fl gs = { gs with
      EstimatedTimeLeft :=
        if (fl.isPos gs.ViewsPerSecond = true ∧ gs.TargetViews > 0) ∧
            gs.TargetViews - gs.TotalSuccessful > 0 then
          wrap64 (fl.toInt (fl.div (fl.ofInt (gs.TargetViews - gs.TotalSuccessful))
            gs.ViewsPerSecond) * 1000000000)
        else gs.EstimatedTimeLeft } := by
  unfold updateEstimate
  simp only []
  by_cases h1 : fl.isPos gs.ViewsPerSecond = true ∧ gs.TargetViews > 0
  · by_cases h2 : gs.TargetViews - gs.TotalSuccessful > 0
    · simp [h1, h2]
    · simp [h1, h2]
  · simp [h1]

/-- Claim C5, amended: for every store state and every clock reading,
`UpdateGlobalMetrics(0)` leaves `ViewsGained`, `ViewsPerSecond` and `ViewsPerMinute`
untouched; `SuccessRate` is untouched when `TotalSuccessful + TotalFailed ≤ 0` and is
otherwise recomputed from the two totals; `EstimatedTimeLeft` is untouched unless the
stored `ViewsPerSecond` is positive, `TargetViews > 0` and
`TargetViews - TotalSuccessful > 0`, in which case it is recomputed from them: the whole
seconds `(TargetViews - TotalSuccessful) / ViewsPerSecond` times `10^9`, as a 64-bit
product of nanoseconds, which wraps around when the exact product does not fit. -/
theorem C5_unknown_counter_frame {F : Type} (fl : FloatOps F) (gs : GlobalStats F)
    (now : Int) :
    (UpdateGlobalMetrics fl gs 0 now).ViewsGained = gs.ViewsGained ∧
    (UpdateGlobalMetrics fl gs 0 now).ViewsPerSecond = gs.ViewsPerSecond ∧
    (UpdateGlobalMetrics fl gs 0 now).ViewsPerMinute = gs.ViewsPerMinute ∧
    (gs.TotalSuccessful + gs.TotalFailed ≤ 0 →
      (UpdateGlobalMetrics fl gs 0 now).SuccessRate = gs.SuccessRate) ∧
    (gs.TotalSuccessful + gs.TotalFailed > 0 →
      (UpdateGlobalMetrics fl gs 0 now).SuccessRate
        = fl.mul (fl.div (fl.ofInt gs.TotalSuccessful)
            (fl.ofInt (gs.TotalSuccessful + gs.TotalFailed))) (fl.ofInt 100)) ∧
    (¬ (fl.isPos gs.ViewsPerSecond = true ∧ gs.TargetViews > 0 ∧
          gs.TargetViews - gs.TotalSuccessful > 0) →
      (UpdateGlobalMetrics fl gs 0 now).EstimatedTimeLeft = gs.EstimatedTimeLeft) ∧
    (fl.isPos gs.ViewsPerSecond = true ∧ gs.TargetViews > 0 ∧
          gs.TargetViews - gs.TotalSuccessful > 0 →
      (UpdateGlobalMetrics fl gs 0 now).EstimatedTimeLeft
        = wrap64 (fl.toInt (fl.div (fl.ofInt (gs.TargetViews - gs.TotalSuccessful))
            gs.ViewsPerSecond) * 1000000000)) := by
  simp only [UpdateGlobalMetrics, updateEstimate_eq, updateViewRates_eq, updateSuccessRate_eq]
  refine ⟨?_, ?_, ?_, ?_, ?_, ?_, ?_⟩
  · simp
  · simp
  · simp
  · intro h
    simp [not_lt.2 h]
  · intro h
    simp [h]
  · intro h
    simp only [lt_self_iff_false, false_and, if_false, gt_iff_lt]
    rw [if_neg]
    simpa [and_assoc] using h
  · intro h
    simp only [lt_self_iff_false, false_and, if_false, gt_iff_lt]
    rw [if_pos]
    simpa [and_assoc] using h

/-- Worked instance of C5: on the store of the counterexample the poll with counter value
0 keeps `ViewsGained = 10`, `ViewsPerSecond = 1` and `ViewsPerMinute = 60`, and recomputes
`SuccessRate` and `EstimatedTimeLeft`, whose guards hold; on `slowStore` the recomputed
`EstimatedTimeLeft` is the wrapped product, a negative duration. -/
theorem C5_unknown_counter_frame_witness :
    (UpdateGlobalMetrics ratOps (IncrementSuccess polledStore 1) 0 13000000000).ViewsGained
      = 10 ∧
    (UpdateGlobalMetrics ratOps (IncrementSuccess polledStore 1) 0
      13000000000).ViewsPerSecond = 1 ∧
    (UpdateGlobalMetrics ratOps (IncrementSuccess polledStore 1) 0
      13000000000).ViewsPerMinute = 60 ∧
    (UpdateGlobalMetrics ratOps (IncrementSuccess polledStore 1) 0 13000000000).SuccessRate
      = 100 ∧
    (UpdateGlobalMetrics ratOps (IncrementSuccess polledStore 1) 0
      13000000000).EstimatedTimeLeft = 9000000000 ∧
    (UpdateGlobalMetrics ratOps slowStore 0 13000000000).EstimatedTimeLeft
      = -2062744073709551616 := by
  refine and_assoc.1 (and_assoc.1 (and_assoc.1 (and_assoc.1 ⟨?_, ?_⟩)))
  swap
  · have q7 := (C5_unknown_counter_frame ratOps slowStore 13000000000).2.2.2.2.2.2
    have k7 : ratOps.isPos slowStore.ViewsPerSecond = true ∧ slowStore.TargetViews > 0 ∧
        slowStore.TargetViews - slowStore.TotalSuccessful > 0 := by
      simp [slowStore, NewGlobalStats, ratOps]
    have hq : ratOps.toInt (ratOps.div (ratOps.ofInt
        (slowStore.TargetViews - slowStore.TotalSuccessful)) slowStore.ViewsPerSecond)
        = 16384000000 := by
      have e : ((2000000 : ℚ) / (1 / 8192)) = ((16384000000 : Int) : ℚ) := by norm_num
      simp only [slowStore, NewGlobalStats, ratOps, sub_zero, Int.cast_ofNat, e,
        Rat.intCast_num, Rat.intCast_den]
      decide
    rw [q7 k7, hq]
    decide
  simp only [and_assoc]
  obtain ⟨p1, p2, p3, _, p5, _, p7⟩ :=
    C5_unknown_counter_frame ratOps (IncrementSuccess polledStore 1) 13000000000
  have g5 : (IncrementSuccess polledStore 1).TotalSuccessful
      + (IncrementSuccess polledStore 1).TotalFailed > 0 := by
    rw [polledStore_eq]
    decide
  have g7 : ratOps.isPos (IncrementSuccess polledStore 1).ViewsPerSecond = true ∧
      (IncrementSuccess polledStore 1).TargetViews > 0 ∧
      (IncrementSuccess polledStore 1).TargetViews
        - (IncrementSuccess polledStore 1).TotalSuccessful > 0 := by
    rw [polledStore_eq]
    simp [IncrementSuccess, startedStore, NewGlobalStats, ratOps]
  have hw : wrap64 9000000000 = 9000000000 := by decide
  rw [p1, p2, p3, p5 g5, p7 g7, polledStore_eq]
  simp [IncrementSuccess, startedStore, NewGlobalStats, ratOps, hw]

/-- Claim C6, as stated, fails: the store before and the store after the first poll
agree on every raw field, yet a poll twenty seconds into the run that reads the counter
value 0 leaves them with different `ViewsGained`, `ViewsPerSecond`, `ViewsPerMinute` and
`EstimatedTimeLeft`: the values stored by the first poll are carried forward. -/
theorem C6_counterexample :
    (startedStore.TotalSuccessful = polledStore.TotalSuccessful ∧
     startedStore.TotalFailed = polledStore.TotalFailed ∧
     startedStore.InitialViews = polledStore.InitialViews ∧
     startedStore.TargetViews = polledStore.TargetViews ∧
     startedStore.StartTime = polledStore.StartTime) ∧
    (UpdateGlobalMetrics ratOps startedStore 0 20000000000).ViewsGained = 0 ∧
    (UpdateGlobalMetrics ratOps polledStore 0 20000000000).ViewsGained = 10 ∧
    (UpdateGlobalMetrics ratOps startedStore 0 20000000000).ViewsPerSecond = 0 ∧
    (UpdateGlobalMetrics ratOps polledStore 0 20000000000).ViewsPerSecond = 1 ∧
    (UpdateGlobalMetrics ratOps startedStore 0 20000000000).ViewsPerMinute = 0 ∧
    (UpdateGlobalMetrics ratOps polledStore 0 20000000000).ViewsPerMinute = 60 ∧
    (UpdateGlobalMetrics ratOps startedStore 0 20000000000).EstimatedTimeLeft = 0 ∧
    (UpdateGlobalMetrics ratOps polledStore 0 20000000000).EstimatedTimeLeft
      = 10000000000 := by
  rw [polledStore_eq]
  have h1 : Int.tdiv 20000000000 1000000000 = 20 := by decide
  have h2 : Int.tmod 20000000000 1000000000 = 0 := by decide
  refine ⟨⟨rfl, rfl, rfl, rfl, rfl⟩, ?_, ?_, ?_, ?_, ?_, ?_, ?_, ?_⟩ <;>
    simp [startedStore, UpdateGlobalMetrics, updateEstimate, updateViewRates,
      updateSuccessRate, NewGlobalStats, ratOps, durationSeconds, h1, h2, wrap64_eq_self]

/-- Claim C6, amended: for any two store states that agree on the raw fields
(`TotalSuccessful`, `TotalFailed`, `InitialViews`, `TargetViews`, `StartTime`) and may
differ arbitrarily in their stored derived fields, `UpdateGlobalMetrics` with the same
counter value `v` at the same clock reading yields the same `SuccessRate` when
`TotalSuccessful + TotalFailed > 0`, the same `ViewsGained` when `v > 0` and
`InitialViews > 0`, the same `ViewsPerSecond` and `ViewsPerMinute` when moreover the
elapsed seconds are positive, and the same `EstimatedTimeLeft` when moreover the
recomputed `ViewsPerSecond` is positive, `TargetViews > 0` and
`TargetViews - TotalSuccessful > 0`. -/
theorem C6_derived_pure_when_recomputed {F : Type} (fl : FloatOps F) (a b : GlobalStats F)
    (v now : Int)
    (hS : a.TotalSuccessful = b.TotalSuccessful) (hF : a.TotalFailed = b.TotalFailed)
    (hI : a.InitialViews = b.InitialViews) (hT : a.TargetViews = b.TargetViews)
    (hSt : a.StartTime = b.StartTime) :
    (a.TotalSuccessful + a.TotalFailed > 0 →
      (UpdateGlobalMetrics fl a v now).SuccessRate
        = (UpdateGlobalMetrics fl b v now).SuccessRate) ∧
    (v > 0 ∧ a.InitialViews > 0 →
      (UpdateGlobalMetrics fl a v now).ViewsGained
        = (UpdateGlobalMetrics fl b v now).ViewsGained) ∧
    (v > 0 ∧ a.InitialViews > 0 ∧
        fl.isPos (durationSeconds fl (now - a.StartTime)) = true →
      (UpdateGlobalMetrics fl a v now).ViewsPerSecond
        = (UpdateGlobalMetrics fl b v now).ViewsPerSecond ∧
      (UpdateGlobalMetrics fl a v now).ViewsPerMinute
        = (UpdateGlobalMetrics fl b v now).ViewsPerMinute) ∧
    (v > 0 ∧ a.InitialViews > 0 ∧
        fl.isPos (durationSeconds fl (now - a.StartTime)) = true ∧
        fl.isPos (fl.div (fl.ofInt (v - a.InitialViews))
          (durationSeconds fl (now - a.StartTime))) = true ∧
        a.TargetViews > 0 ∧ a.TargetViews - a.TotalSuccessful > 0 →
      (UpdateGlobalMetrics fl a v now).EstimatedTimeLeft
        = (UpdateGlobalMetrics fl b v now).EstimatedTimeLeft) := by
  simp only [UpdateGlobalMetrics, updateEstimate_eq, updateViewRates_eq, updateSuccessRate_eq]
  rw [← hS, ← hF, ← hI, ← hT, ← hSt]
  refine ⟨?_, ?_, ?_, ?_⟩
  · intro h
    simp [h]
  · intro h
    simp [h]
  · rintro ⟨h1, h2, h3⟩
    simp [h1, h2, h3]
  · rintro ⟨h1, h2, h3, h4, h5, h6⟩
    simp [h1, h2, h3, h4, h5, h6]

/-- Worked instance of C6: after one successful operation the two stores of the
counterexample agree on the raw fields, every guard passes for a poll that reads 120
views twenty seconds into the run, and the five derived fields come out identical. -/
theorem C6_derived_pure_when_recomputed_witness :
    (UpdateGlobalMetrics ratOps (IncrementSuccess startedStore 1) 120
        20000000000).SuccessRate
      = (UpdateGlobalMetrics ratOps (IncrementSuccess polledStore 1) 120
          20000000000).SuccessRate ∧
    (UpdateGlobalMetrics ratOps (IncrementSuccess startedStore 1) 120
        20000000000).ViewsGained
      = (UpdateGlobalMetrics ratOps (IncrementSuccess polledStore 1) 120
          20000000000).ViewsGained ∧
    ((UpdateGlobalMetrics ratOps (IncrementSuccess startedStore 1) 120
        20000000000).ViewsPerSecond
      = (UpdateGlobalMetrics ratOps (IncrementSuccess polledStore 1) 120
          20000000000).ViewsPerSecond ∧
     (UpdateGlobalMetrics ratOps (IncrementSuccess startedStore 1) 120
        20000000000).ViewsPerMinute
      = (UpdateGlobalMetrics ratOps (IncrementSuccess polledStore 1) 120
          20000000000).ViewsPerMinute) ∧
    (UpdateGlobalMetrics ratOps (IncrementSuccess startedStore 1) 120
        20000000000).EstimatedTimeLeft
      = (UpdateGlobalMetrics ratOps (IncrementSuccess polledStore 1) 120
          20000000000).EstimatedTimeLeft := by
  have h1 : Int.tdiv 20000000000 1000000000 = 20 := by decide
  have h2 : Int.tmod 20000000000 1000000000 = 0 := by decide
  have hpos : ratOps.isPos (durationSeconds ratOps
      (20000000000 - (IncrementSuccess startedStore 1).StartTime)) = true := by
    simp [startedStore, IncrementSuccess, NewGlobalStats, ratOps, durationSeconds, h1, h2]
  have hvps : ratOps.isPos (ratOps.div
      (ratOps.ofInt (120 - (IncrementSuccess startedStore 1).InitialViews))
      (durationSeconds ratOps
        (20000000000 - (IncrementSuccess startedStore 1).StartTime))) = true := by
    simp [startedStore, IncrementSuccess, NewGlobalStats, ratOps, durationSeconds, h1, h2]
  obtain ⟨g1, g2, g3, g4⟩ := C6_derived_pure_when_recomputed ratOps
    (IncrementSuccess startedStore 1) (IncrementSuccess polledStore 1) 120 20000000000
    (by rw [polledStore_eq]; rfl) (by rw [polledStore_eq]; rfl) (by rw [polledStore_eq]; rfl)
    (by rw [polledStore_eq]; rfl) (by rw [polledStore_eq]; rfl)
  exact ⟨g1 (by decide), g2 ⟨by decide, by decide⟩, g3 ⟨by decide, by decide, hpos⟩,
    g4 ⟨by decide, by decide, hpos, hvps, by decide, by decide⟩⟩

/-! ## Start-up path (`internal/config/config.go`, `main.go`) -/

/-- Claim C7 on the code: a configuration that passes `validateConfig` (2 bots, 3 views
per bot) is run with `--no-interactive`; the workers are started with
`TargetViews = 0`, not `2 * 3 = 6`, because only `runInteractiveSetup` assigns
`TargetViews`.  The same configuration without `--no-interactive` starts the workers
with `TargetViews = 6`. -/
theorem C7_noninteractive_target_is_zero :
    validateConfig { flagsConfig with NoInteractive := true } = none ∧
    targetAtStart (run plainInputs
      { NewApplication ratOps with config := { flagsConfig with NoInteractive := true } })
      = some 0 ∧
    plannedAtStart (run plainInputs
      { NewApplication ratOps with config := { flagsConfig with NoInteractive := true } })
      = some 6 ∧
    targetAtStart (run plainInputs { NewApplication ratOps with config := flagsConfig })
      = some 6 ∧
    plannedAtStart (run plainInputs { NewApplication ratOps with config := flagsConfig })
      = some 6 := by
  refine ⟨?_, ?_, ?_, ?_, ?_⟩ <;>
    simp [validateConfig, flagsConfig, DefaultConfig, targetAtStart, plannedAtStart, run,
      initApp, runInteractiveSetup, getInitialViews, plainInputs, NewApplication,
      NewGlobalStats]

/-! ## Success rate (`UpdateGlobalMetrics`) -/

/-- Claim C12: for every store state, every counter value `v` and every clock reading,
applying `UpdateGlobalMetrics(v)` twice in succession at the same clock reading yields
exactly the same store state as applying it once. -/
theorem C12_UpdateGlobalMetrics_idempotent {F : Type} (fl : FloatOps F) (gs : GlobalStats F)
    (v now : Int) :
    UpdateGlobalMetrics fl (UpdateGlobalMetrics fl gs v now) v now
      = UpdateGlobalMetrics fl gs v now := by
  simp only [UpdateGlobalMetrics, updateEstimate_eq, updateViewRates_eq, updateSuccessRate_eq]
  by_cases h1 : gs.TotalSuccessful + gs.TotalFailed > 0 <;>
  by_cases h2 : v > 0 ∧ gs.InitialViews > 0 <;>
  by_cases h3 : fl.isPos (durationSeconds fl (now - gs.StartTime)) = true <;>
  simp only [h1, h2, h3, and_self, and_true, and_false, if_true, if_false, ite_self] <;>
  split_ifs <;> simp_all

/-! ## Monotonicity of the totals -/

theorem sum_map_nonpos (f : Op → Int) (ops : List Op) (h : ∀ op ∈ ops, f op ≤ 0) :
    (ops.map f).sum ≤ 0 := by
  induction ops with
  | nil => simp
  | cons op rest ih =>
    have h1 := h op (List.mem_cons_self _ _)
    have h2 := ih (fun o ho => h o (List.mem_cons_of_mem _ ho))
    simp only [List.map_cons, List.sum_cons]
    omega

theorem sum_map_nonneg (f : Op → Int) (ops : List Op) (h : ∀ op ∈ ops, 0 ≤ f op) :
    0 ≤ (ops.map f).sum := by
  induction ops with
  | nil => simp
  | cons op rest ih =>
    have h1 := h op (List.mem_cons_self _ _)
    have h2 := ih (fun o ho => h o (List.mem_cons_of_mem _ ho))
    simp only [List.map_cons, List.sum_cons]
    omega

theorem NonposTails_runBot (obs : Int → Observation) (botID viewsPerBot : Int) :
    NonposTails (runBot obs botID viewsPerBot) := by
  intro s hs
  rw [runBot, List.suffix_cons_iff] at hs
  rcases hs with hs | hs
  · rw [hs]
    exact le_of_eq (runBot_activeDelta obs botID viewsPerBot)
  · refine sum_map_nonpos activeDelta s ?_
    intro op hop
    have hmem := hs.subset hop
    rcases List.mem_append.1 hmem with h | h
    · exact le_of_eq
        (isLoopOp_facts botID op (runBotLoop_loopOps obs botID viewsPerBot 1 op h)).1
    · simp only [List.mem_singleton] at h
      rw [h]
      simp [activeDelta]

theorem NonposTails_tail (op : Op) (rest : List Op) (h : NonposTails (op :: rest)) :
    NonposTails rest :=
  fun s hs => h s (hs.trans (List.suffix_cons op rest))

theorem Interleaving.remaining (Q : List Op → Prop)
    (hQ : ∀ op rest, Q (op :: rest) → Q rest) :
    ∀ (p q : List Op) (ts : List (List Op)), Interleaving ts (p ++ q) →
      (∀ t ∈ ts, Q t) → ∃ ts1, Interleaving ts1 q ∧ ∀ t ∈ ts1, Q t := by
  intro p
  induction p with
  | nil =>
    intro q ts h hts
    exact ⟨ts, h, hts⟩
  | cons op p1 ih =>
    intro q ts h hts
    rw [List.cons_append] at h
    cases h with
    | step pre post _ rest _ h1 =>
      refine ih q _ h1 ?_
      intro t ht
      rcases List.mem_append.1 ht with ht | ht
      · exact hts t (List.mem_append_left _ ht)
      · rcases List.mem_cons.1 ht with ht | ht
        · rw [ht]
          exact hQ op rest (hts (op :: rest) (by simp))
        · exact hts t (List.mem_append_right _ (List.mem_cons_of_mem _ ht))

theorem sumOver_nonpos (f : Op → Int) (ts : List (List Op))
    (h : ∀ t ∈ ts, (t.map f).sum ≤ 0) : sumOver f ts ≤ 0 := by
  induction ts with
  | nil => simp [sumOver]
  | cons t rest ih =>
    have h1 := h t (List.mem_cons_self _ _)
    have h2 := ih (fun u hu => h u (List.mem_cons_of_mem _ hu))
    rw [sumOver_cons]
    omega

theorem launchBots_mem (obs : Int → Int → Observation) (botCount viewsPerBot : Int) :
    ∀ (n : Nat) (i : Int), (botCount + 1 - i).toNat = n →
      ∀ t ∈ launchBots obs botCount viewsPerBot i,
        ∃ j, i ≤ j ∧ j ≤ botCount ∧ t = runBot (obs j) j viewsPerBot := by
  intro n
  induction n with
  | zero =>
    intro i hn t ht
    rw [launchBots, if_neg (by omega)] at ht
    simp at ht
  | succ n ih =>
    intro i hn t ht
    rw [launchBots, if_pos (by omega)] at ht
    rcases List.mem_cons.1 ht with ht | ht
    · exact ⟨i, le_refl _, by omega, ht⟩
    · obtain ⟨j, h1, h2, h3⟩ := ih (i + 1) (by omega) t ht
      exact ⟨j, by omega, h2, h3⟩

theorem launchBots_length (obs : Int → Int → Observation) (botCount viewsPerBot : Int) :
    ∀ (n : Nat) (i : Int), (botCount + 1 - i).toNat = n →
      (launchBots obs botCount viewsPerBot i).length = n := by
  intro n
  induction n with
  | zero =>
    intro i hn
    rw [launchBots, if_neg (by omega)]
    rfl
  | succ n ih =>
    intro i hn
    rw [launchBots, if_pos (by omega), List.length_cons, ih (i + 1) (by omega)]

theorem delta_sum_nonneg (op : Op) : 0 ≤ activeDelta op + finishedDelta op := by
  cases op <;> simp [activeDelta, finishedDelta]

theorem sum_map_add (f g : Op → Int) (ops : List Op) :
    (ops.map (fun op => f op + g op)).sum = (ops.map f).sum + (ops.map g).sum := by
  induction ops with
  | nil => simp
  | cons op rest ih =>
    simp only [List.map_cons, List.sum_cons, ih]
    omega

/-- Claim C14: in every store reached during a run of `N` workers (after any initial
part of any interleaving of the store calls of the `N` executions of `runBot`, whatever
the outcomes and whenever cancellation is observed), started on a store with
`ActiveBots = FinishedBots = 0`: `ActiveBots ≥ 0`, `FinishedBots ≥ 0` and
`ActiveBots + FinishedBots ≤ N`; no store call ever decreases `FinishedBots`.  Each of the
`N` workers issues `SetActiveBot` for its identity first and `SetFinishedBot` for its
identity last; on every store the first call raises `ActiveBots` by one and leaves
`FinishedBots`, the last call lowers `ActiveBots` by one and raises `FinishedBots` by one,
and every call in between leaves both counters as they are, so that the calls of one
worker, taken together, leave `ActiveBots` and add one to `FinishedBots`.  When
`StartBots` returns, `ActiveBots = 0` and `FinishedBots = N`. -/
theorem C14_active_finished_invariant {F : Type} (fl : FloatOps F)
    (obs : Int → Int → Observation) (N M : Int) (hN : 0 ≤ N) (gs : GlobalStats F) (now : Int)
    (hzero : gs.ActiveBots = 0 ∧ gs.FinishedBots = 0) :
    ((launchBots obs N M 1).length : Int) = N ∧
    (∀ gs1, RunReaches fl obs N M gs now gs1 →
      0 ≤ gs1.ActiveBots ∧ 0 ≤ gs1.FinishedBots ∧ gs1.ActiveBots + gs1.FinishedBots ≤ N) ∧
    (∀ (gs1 : GlobalStats F) (op : Op), gs1.FinishedBots ≤ (applyOp fl gs1 op).FinishedBots) ∧
    (∀ t ∈ launchBots obs N M 1, ∃ botID mid, 1 ≤ botID ∧ botID ≤ N ∧
      t = Op.SetActiveBot botID :: (mid ++ [Op.SetFinishedBot botID]) ∧
      ∀ gs1 : GlobalStats F,
        ((applyOp fl gs1 (Op.SetActiveBot botID)).ActiveBots = gs1.ActiveBots + 1 ∧
         (applyOp fl gs1 (Op.SetActiveBot botID)).FinishedBots = gs1.FinishedBots) ∧
        (∀ op ∈ mid, (applyOp fl gs1 op).ActiveBots = gs1.ActiveBots ∧
          (applyOp fl gs1 op).FinishedBots = gs1.FinishedBots) ∧
        ((applyOp fl gs1 (Op.SetFinishedBot botID)).ActiveBots = gs1.ActiveBots - 1 ∧
         (applyOp fl gs1 (Op.SetFinishedBot botID)).FinishedBots = gs1.FinishedBots + 1) ∧
        ((applyOps fl gs1 t).ActiveBots = gs1.ActiveBots ∧
         (applyOps fl gs1 t).FinishedBots = gs1.FinishedBots + 1)) ∧
    (∀ gs1, StartBotsReturns fl obs N M gs now gs1 →
      gs1.ActiveBots = 0 ∧ gs1.FinishedBots = N) := by
  obtain ⟨ha, hf⟩ := hzero
  have hlen := launchBots_length obs N M _ 1 rfl
  obtain ⟨b1, b2, _⟩ := launchBots_bookkeeping obs N M _ 1 rfl
  have hn : (((N + 1 - 1).toNat : Nat) : Int) = N := by omega
  refine ⟨by rw [hlen, hn], ?_, ?_, ?_, ?_⟩
  · rintro gs1 ⟨p, q, hI, rfl⟩
    have hA := hI.sum_map activeDelta
    have hF := hI.sum_map finishedDelta
    rw [List.map_append, List.sum_append] at hA hF
    rw [b2] at hA
    rw [b1, hn] at hF
    have hT : ∀ t ∈ launchBots obs N M 1, NonposTails t := by
      intro t ht
      obtain ⟨j, _, _, hj⟩ := launchBots_mem obs N M _ 1 rfl t ht
      rw [hj]
      exact NonposTails_runBot (obs j) j M
    obtain ⟨ts1, hI1, hQ1⟩ := Interleaving.remaining NonposTails NonposTails_tail p q _ hI hT
    have hq : (q.map activeDelta).sum ≤ 0 := by
      rw [hI1.sum_map activeDelta]
      exact sumOver_nonpos activeDelta ts1 (fun t ht => hQ1 t ht t (List.suffix_refl t))
    have hpF : 0 ≤ (p.map finishedDelta).sum :=
      sum_map_nonneg finishedDelta p (fun op _ => by cases op <;> simp [finishedDelta])
    have hqS : 0 ≤ (q.map activeDelta).sum + (q.map finishedDelta).sum := by
      rw [← sum_map_add]
      exact sum_map_nonneg _ q (fun op _ => delta_sum_nonneg op)
    rw [applyOps_ActiveBots, applyOps_FinishedBots]
    simp only [ha, hf]
    refine ⟨by omega, by omega, by omega⟩
  · intro gs1 op
    rw [applyOp_FinishedBots]
    cases op <;> simp [finishedDelta]
  · intro t ht
    obtain ⟨j, h1, h2, hj⟩ := launchBots_mem obs N M _ 1 rfl t ht
    refine ⟨j, runBotLoop (obs j) j M 1, h1, h2, by rw [hj, runBot], ?_⟩
    intro gs1
    refine ⟨⟨rfl, rfl⟩, ?_, ⟨rfl, rfl⟩, ?_⟩
    · intro op hop
      have h := isLoopOp_facts j op (runBotLoop_loopOps (obs j) j M 1 op hop)
      rw [applyOp_ActiveBots, applyOp_FinishedBots, h.1, h.2.1]
      exact ⟨by omega, by omega⟩
    · rw [hj, applyOps_ActiveBots, applyOps_FinishedBots, runBot_activeDelta,
        runBot_finishedDelta]
      exact ⟨by omega, rfl⟩
  · rintro gs1 ⟨sched, hI, rfl⟩
    have hA := hI.sum_map activeDelta
    have hF := hI.sum_map finishedDelta
    rw [b2] at hA
    rw [b1, hn] at hF
    rw [applyOps_ActiveBots, applyOps_FinishedBots, hA, hF]
    simp only [ha, hf]
    exact ⟨by omega, by omega⟩

/-- Worked instance of C14: two workers with one operation each, started on the fresh
store.  After both have called `SetActiveBot` the store has `ActiveBots = 2` and
`FinishedBots = 0`; after worker 1 has then run to its end, `SetFinishedBot` included, it
has `ActiveBots = 1` and `FinishedBots = 1`; when worker 2 has returned too it has
`ActiveBots = 0` and `FinishedBots = 2`. -/
theorem C14_active_finished_invariant_witness :
    (0 : Int) ≤ 2 ∧
    ((NewGlobalStats ratOps).ActiveBots = 0 ∧ (NewGlobalStats ratOps).FinishedBots = 0) ∧
    ((applyOps ratOps { NewGlobalStats ratOps with StartTime := 7 }
        [Op.SetActiveBot 1, Op.SetActiveBot 2]).ActiveBots = 2 ∧
     (applyOps ratOps { NewGlobalStats ratOps with StartTime := 7 }
        [Op.SetActiveBot 1, Op.SetActiveBot 2]).FinishedBots = 0) ∧
    ((applyOps ratOps { NewGlobalStats ratOps with StartTime := 7 }
        [Op.SetActiveBot 1, Op.SetActiveBot 2, Op.UpdateBotStatus 1 "View 1/1",
         Op.IncrementSuccess 1, Op.UpdateBotStatus 1 "Finished",
         Op.SetFinishedBot 1]).ActiveBots = 1 ∧
     (applyOps ratOps { NewGlobalStats ratOps with StartTime := 7 }
        [Op.SetActiveBot 1, Op.SetActiveBot 2, Op.UpdateBotStatus 1 "View 1/1",
         Op.IncrementSuccess 1, Op.UpdateBotStatus 1 "Finished",
         Op.SetFinishedBot 1]).FinishedBots = 1) ∧
    (0 ≤ (applyOps ratOps { NewGlobalStats ratOps with StartTime := 7 }
        [Op.SetActiveBot 1, Op.SetActiveBot 2, Op.UpdateBotStatus 1 "View 1/1",
         Op.IncrementSuccess 1, Op.UpdateBotStatus 1 "Finished",
         Op.SetFinishedBot 1]).ActiveBots ∧
     0 ≤ (applyOps ratOps { NewGlobalStats ratOps with StartTime := 7 }
        [Op.SetActiveBot 1, Op.SetActiveBot 2, Op.UpdateBotStatus 1 "View 1/1",
         Op.IncrementSuccess 1, Op.UpdateBotStatus 1 "Finished",
         Op.SetFinishedBot 1]).FinishedBots ∧
     (applyOps ratOps { NewGlobalStats ratOps with StartTime := 7 }
        [Op.SetActiveBot 1, Op.SetActiveBot 2, Op.UpdateBotStatus 1 "View 1/1",
         Op.IncrementSuccess 1, Op.UpdateBotStatus 1 "Finished",
         Op.SetFinishedBot 1]).ActiveBots
      + (applyOps ratOps { NewGlobalStats ratOps with StartTime := 7 }
        [Op.SetActiveBot 1, Op.SetActiveBot 2, Op.UpdateBotStatus 1 "View 1/1",
         Op.IncrementSuccess 1, Op.UpdateBotStatus 1 "Finished",
         Op.SetFinishedBot 1]).FinishedBots ≤ 2) ∧
    ((applyOps ratOps { NewGlobalStats ratOps with StartTime := 7 }
        [Op.SetActiveBot 1, Op.SetActiveBot 2, Op.UpdateBotStatus 1 "View 1/1",
         Op.IncrementSuccess 1, Op.UpdateBotStatus 1 "Finished", Op.SetFinishedBot 1,
         Op.UpdateBotStatus 2 "View 1/1", Op.IncrementFailed 2 "HTTP 500",
         Op.UpdateBotStatus 2 "Finished", Op.SetFinishedBot 2]).ActiveBots = 0 ∧
     (applyOps ratOps { NewGlobalStats ratOps with StartTime := 7 }
        [Op.SetActiveBot 1, Op.SetActiveBot 2, Op.UpdateBotStatus 1 "View 1/1",
         Op.IncrementSuccess 1, Op.UpdateBotStatus 1 "Finished", Op.SetFinishedBot 1,
         Op.UpdateBotStatus 2 "View 1/1", Op.IncrementFailed 2 "HTTP 500",
         Op.UpdateBotStatus 2 "Finished", Op.SetFinishedBot 2]).FinishedBots = 2) := by
  have hl : launchBots secondFails 2 1 1
      = [[Op.SetActiveBot 1, Op.UpdateBotStatus 1 "View 1/1", Op.IncrementSuccess 1,
          Op.UpdateBotStatus 1 "Finished", Op.SetFinishedBot 1],
         [Op.SetActiveBot 2, Op.UpdateBotStatus 2 "View 1/1",
          Op.IncrementFailed 2 "HTTP 500", Op.UpdateBotStatus 2 "Finished",
          Op.SetFinishedBot 2]] := by
    simp [launchBots, runBot, runBotLoop, secondFails, viewStatus]
    decide
  have hI : Interleaving (launchBots secondFails 2 1 1)
      ([Op.SetActiveBot 1, Op.SetActiveBot 2, Op.UpdateBotStatus 1 "View 1/1",
         Op.IncrementSuccess 1, Op.UpdateBotStatus 1 "Finished", Op.SetFinishedBot 1] ++
        [Op.UpdateBotStatus 2 "View 1/1", Op.IncrementFailed 2 "HTTP 500",
          Op.UpdateBotStatus 2 "Finished", Op.SetFinishedBot 2]) := by
    rw [hl]
    refine Interleaving.step [] _ _ _ _ ?_
    refine Interleaving.step [_] [] _ _ _ ?_
    exact Interleaving.sequential
      [[Op.UpdateBotStatus 1 "View 1/1", Op.IncrementSuccess 1,
        Op.UpdateBotStatus 1 "Finished", Op.SetFinishedBot 1],
       [Op.UpdateBotStatus 2 "View 1/1", Op.IncrementFailed 2 "HTTP 500",
        Op.UpdateBotStatus 2 "Finished", Op.SetFinishedBot 2]]
  obtain ⟨_, hreach, _, _, hret⟩ := C14_active_finished_invariant ratOps secondFails 2 1
    (by decide) (NewGlobalStats ratOps) 7 ⟨rfl, rfl⟩
  have h := hreach _ ⟨_, _, hI, rfl⟩
  have hend := hret _ ⟨_, hI, rfl⟩
  refine ⟨by decide, ⟨rfl, rfl⟩, ?_, ?_, h, hend⟩
  · simp [applyOps, applyOp, SetActiveBot, NewGlobalStats]
  · simp [applyOps, applyOp, SetActiveBot, SetFinishedBot, UpdateBotStatus, IncrementSuccess,
      NewGlobalStats]

/-! ## The last error of a worker -/

theorem recordedOutcomes_applyOp {F : Type} (fl : FloatOps F) (gs : GlobalStats F) (w : Int)
    (op : Op) (h : isWorkerOp op = true) :
    recordedOutcomes (applyOp fl gs op) w = recordedOutcomes gs w + outcomeDeltaOf w op := by
  cases op with
  | UpdateBotStats b successful failed status lastError => simp [isWorkerOp] at h
  | UpdateGlobalMetrics currentViews now => simp [isWorkerOp] at h
  | IncrementSuccess b =>
    by_cases hb : w = b
    · subst hb
      cases hg : getBot gs.Bots w <;>
        simp [recordedOutcomes, outcomeDeltaOf, applyOp, IncrementSuccess,
          getBot_modifyBot_same, getBot_ensureBot_same, hg]
      omega
    · simp [recordedOutcomes, outcomeDeltaOf, applyOp, IncrementSuccess,
        getBot_modifyBot_other _ _ _ _ hb, getBot_ensureBot_other _ _ _ hb, Ne.symm hb]
  | IncrementFailed b error =>
    by_cases hb : w = b
    · subst hb
      cases hg : getBot gs.Bots w <;>
        simp [recordedOutcomes, outcomeDeltaOf, applyOp, IncrementFailed,
          getBot_modifyBot_same, getBot_ensureBot_same, hg]
      omega
    · simp [recordedOutcomes, outcomeDeltaOf, applyOp, IncrementFailed,
        getBot_modifyBot_other _ _ _ _ hb, getBot_ensureBot_other _ _ _ hb, Ne.symm hb]
  | UpdateBotStatus b status =>
    by_cases hb : w = b
    · subst hb
      cases hg : getBot gs.Bots w <;>
        simp [recordedOutcomes, outcomeDeltaOf, applyOp, UpdateBotStatus,
          getBot_modifyBot_same, getBot_ensureBot_same, hg]
    · simp [recordedOutcomes, outcomeDeltaOf, applyOp, UpdateBotStatus,
        getBot_modifyBot_other _ _ _ _ hb, getBot_ensureBot_other _ _ _ hb]
  | SetActiveBot b =>
    by_cases hb : w = b
    · subst hb
      cases hg : getBot gs.Bots w <;>
        simp [recordedOutcomes, outcomeDeltaOf, applyOp, SetActiveBot,
          getBot_ensureBot_same, hg]
    · simp [recordedOutcomes, outcomeDeltaOf, applyOp, SetActiveBot,
        getBot_ensureBot_other _ _ _ hb]
  | SetFinishedBot b =>
    by_cases hb : w = b
    · subst hb
      cases hg : getBot gs.Bots w <;>
        simp [recordedOutcomes, outcomeDeltaOf, applyOp, SetFinishedBot,
          getBot_modifyBot_same, hg]
    · simp [recordedOutcomes, outcomeDeltaOf, applyOp, SetFinishedBot,
        getBot_modifyBot_other _ _ _ _ hb]

theorem recordedOutcomes_applyOps {F : Type} (fl : FloatOps F) (w : Int) (ops : List Op) :
    ∀ gs : GlobalStats F, (∀ op ∈ ops, isWorkerOp op = true) →
      recordedOutcomes (applyOps fl gs ops) w
        = recordedOutcomes gs w + (ops.map (outcomeDeltaOf w)).sum := by
  induction ops with
  | nil => intro gs _; simp [applyOps]
  | cons op rest ih =>
    intro gs h
    rw [applyOps_cons, ih _ (fun o ho => h o (List.mem_cons_of_mem _ ho)),
      recordedOutcomes_applyOp fl gs w op (h op (List.mem_cons_self _ _))]
    simp only [List.map_cons, List.sum_cons]
    omega

theorem outcomeDeltaOf_own (botID : Int) (ops : List Op)
    (h : ∀ op ∈ ops, isLoopOp botID op = true ∨ op = Op.SetActiveBot botID ∨
      op = Op.SetFinishedBot botID) :
    (ops.map (outcomeDeltaOf botID)).sum
      = (ops.map successDelta).sum + (ops.map failedDelta).sum := by
  induction ops with
  | nil => simp
  | cons op rest ih =>
    have hop := h op (List.mem_cons_self _ _)
    have hrest := ih (fun o ho => h o (List.mem_cons_of_mem _ ho))
    simp only [List.map_cons, List.sum_cons, hrest]
    have : outcomeDeltaOf botID op = successDelta op + failedDelta op := by
      rcases hop with hop | hop | hop
      · cases op <;> simp_all [isLoopOp, outcomeDeltaOf, successDelta, failedDelta]
      · simp [hop, outcomeDeltaOf, successDelta, failedDelta]
      · simp [hop, outcomeDeltaOf, successDelta, failedDelta]
    omega

theorem runBot_ownOps (obs : Int → Observation) (botID viewsPerBot : Int) :
    ∀ op ∈ runBot obs botID viewsPerBot, isLoopOp botID op = true ∨
      op = Op.SetActiveBot botID ∨ op = Op.SetFinishedBot botID := by
  intro op hop
  simp only [runBot, List.mem_cons, List.mem_append, List.mem_singleton] at hop
  rcases hop with hop | hop | hop
  · exact Or.inr (Or.inl hop)
  · exact Or.inl (runBotLoop_loopOps obs botID viewsPerBot 1 op hop)
  · rcases hop with hop | hop
    · exact Or.inr (Or.inr hop)
    · simp at hop

/-- From iteration `v` on, a loop whose first observation of cancellation is at the
loop-top check of iteration `k` records `k - v` outcomes and calls the executor `k - v`
times. -/
theorem runBotLoop_cancelledAtTop (obs : Int → Observation) (botID viewsPerBot k : Int)
    (hk : k ≤ viewsPerBot) (hc : (obs k).cancelAtTop = true) :
    ∀ (n : Nat) (v : Int), (k - v).toNat = n → v ≤ k →
      (∀ j, v ≤ j → j < k → (obs j).cancelAtTop = false ∧ (obs j).cancelInWait = false) →
      ((runBotLoop obs botID viewsPerBot v).map successDelta).sum
        + ((runBotLoop obs botID viewsPerBot v).map failedDelta).sum = n ∧
      executorCalls obs viewsPerBot v = n := by
  intro n
  induction n with
  | zero =>
    intro v hn hv _
    have hvk : v = k := by omega
    subst hvk
    rw [runBotLoop, executorCalls, if_pos hk, if_pos hk]
    simp [hc, successDelta, failedDelta]
  | succ n ih =>
    intro v hn hv hq
    obtain ⟨q1, q2⟩ := hq v (le_refl _) (by omega)
    obtain ⟨ih1, ih2⟩ := ih (v + 1) (by omega) (by omega)
      (fun j h1 h2 => hq j (by omega) h2)
    have hvM : v ≤ viewsPerBot := by omega
    rw [runBotLoop, executorCalls, if_pos hvM, if_pos hvM]
    simp only [q1, q2, Bool.false_eq_true, if_false, List.map_cons, List.sum_cons, ih2]
    constructor
    · cases he : (obs v).err <;> simp [successDelta, failedDelta] <;> omega
    · omega

/-- From iteration `v` on, a loop whose first observation of cancellation is during the
delay wait of iteration `k` records `k - v + 1` outcomes and calls the executor
`k - v + 1` times. -/
theorem runBotLoop_cancelledInWait (obs : Int → Observation) (botID viewsPerBot k : Int)
    (hk : k ≤ viewsPerBot) (hc : (obs k).cancelAtTop = false ∧ (obs k).cancelInWait = true) :
    ∀ (n : Nat) (v : Int), (k - v).toNat = n → v ≤ k →
      (∀ j, v ≤ j → j < k → (obs j).cancelAtTop = false ∧ (obs j).cancelInWait = false) →
      ((runBotLoop obs botID viewsPerBot v).map successDelta).sum
        + ((runBotLoop obs botID viewsPerBot v).map failedDelta).sum = n + 1 ∧
      executorCalls obs viewsPerBot v = n + 1 := by
  intro n
  induction n with
  | zero =>
    intro v hn hv _
    have hvk : v = k := by omega
    subst hvk
    rw [runBotLoop, executorCalls, if_pos hk, if_pos hk]
    simp only [hc.1, hc.2, Bool.false_eq_true, if_false, if_true, List.map_cons,
      List.sum_cons]
    cases he : (obs v).err <;> simp [successDelta, failedDelta]
  | succ n ih =>
    intro v hn hv hq
    obtain ⟨q1, q2⟩ := hq v (le_refl _) (by omega)
    obtain ⟨ih1, ih2⟩ := ih (v + 1) (by omega) (by omega)
      (fun j h1 h2 => hq j (by omega) h2)
    have hvM : v ≤ viewsPerBot := by omega
    rw [runBotLoop, executorCalls, if_pos hvM, if_pos hvM]
    simp only [q1, q2, Bool.false_eq_true, if_false, List.map_cons, List.sum_cons, ih2]
    constructor
    · cases he : (obs v).err <;> simp [successDelta, failedDelta] <;> omega
    · omega

theorem runBot_cancelledAtOnce (obs : Int → Observation) (botID viewsPerBot : Int)
    (hc : (obs 1).cancelAtTop = true) :
    ((runBot obs botID viewsPerBot).map successDelta).sum = 0 ∧
    ((runBot obs botID viewsPerBot).map failedDelta).sum = 0 := by
  rw [runBot, runBotLoop]
  by_cases hM : (1 : Int) ≤ viewsPerBot
  · simp [hM, hc, successDelta, failedDelta]
  · simp [hM, successDelta, failedDelta]

theorem launchBots_cancelledAtOnce (obs : Int → Int → Observation)
    (botCount viewsPerBot : Int) (hc : ∀ i, (obs i 1).cancelAtTop = true) :
    ∀ (n : Nat) (i : Int), (botCount + 1 - i).toNat = n →
      sumOver successDelta (launchBots obs botCount viewsPerBot i) = 0 ∧
      sumOver failedDelta (launchBots obs botCount viewsPerBot i) = 0 := by
  intro n
  induction n with
  | zero =>
    intro i hn
    rw [launchBots, if_neg (by omega)]
    simp [sumOver]
  | succ n ih =>
    intro i hn
    obtain ⟨ih1, ih2⟩ := ih (i + 1) (by omega)
    obtain ⟨h1, h2⟩ := runBot_cancelledAtOnce (obs i) i viewsPerBot (hc i)
    rw [launchBots, if_pos (by omega)]
    simp only [sumOver_cons, ih1, ih2, h1, h2]
    exact ⟨rfl, rfl⟩

/-- Claim C16: for every worker run in which cancellation is first observed at the
loop-top check of iteration `k` (`1 ≤ k ≤ M`) or during the delay wait of iteration
`k - 1`, the worker has called the executor exactly `k - 1` times, the
`Successful + Failed` of its record has grown by exactly `k - 1` over the run (so it is
`k - 1` for a worker that had no record) and so have the totals; and if every worker
observes cancellation before its first operation, a run started with
`TotalSuccessful = TotalFailed = 0` ends with `TotalSuccessful = TotalFailed = 0`. -/
theorem C16_no_operation_after_cancel {F : Type} (fl : FloatOps F) :
    (∀ (gs : GlobalStats F) (obs : Int → Observation) (botID M k : Int),
      1 ≤ k → k ≤ M → (cancelledAtTop obs k ∨ (2 ≤ k ∧ cancelledInWait obs (k - 1))) →
        (executorCalls obs M 1 : Int) = k - 1 ∧
        recordedOutcomes (applyOps fl gs (runBot obs botID M)) botID
          = recordedOutcomes gs botID + (k - 1) ∧
        (getBot gs.Bots botID = none →
          recordedOutcomes (applyOps fl gs (runBot obs botID M)) botID = k - 1) ∧
        (applyOps fl gs (runBot obs botID M)).TotalSuccessful
          + (applyOps fl gs (runBot obs botID M)).TotalFailed
          = gs.TotalSuccessful + gs.TotalFailed + (k - 1)) ∧
    (∀ (obs : Int → Int → Observation) (N M : Int) (gs : GlobalStats F) (now : Int)
      (gs1 : GlobalStats F), (∀ i, (obs i 1).cancelAtTop = true) →
        gs.TotalSuccessful = 0 → gs.TotalFailed = 0 →
        StartBotsReturns fl obs N M gs now gs1 →
          gs1.TotalSuccessful = 0 ∧ gs1.TotalFailed = 0) := by
  constructor
  · intro gs obs botID M k hk1 hkM hc
    have hcount : ((runBotLoop obs botID M 1).map successDelta).sum
          + ((runBotLoop obs botID M 1).map failedDelta).sum = k - 1 ∧
        (executorCalls obs M 1 : Int) = k - 1 := by
      rcases hc with ⟨hq, hc⟩ | ⟨hk2, hq, hc1, hc2⟩
      · obtain ⟨h1, h2⟩ := runBotLoop_cancelledAtTop obs botID M k hkM hc _ 1 rfl hk1
          (fun j h1 h2 => hq j h1 h2)
        rw [h1, h2]
        constructor <;> omega
      · obtain ⟨h1, h2⟩ := runBotLoop_cancelledInWait obs botID M (k - 1) (by omega)
          ⟨hc1, hc2⟩ _ 1 rfl (by omega) (fun j h1 h2 => hq j h1 h2)
        rw [h1, h2]
        constructor <;> omega
    obtain ⟨hsum, hexec⟩ := hcount
    have hrun : ((runBot obs botID M).map successDelta).sum
        + ((runBot obs botID M).map failedDelta).sum = k - 1 := by
      simp only [runBot, List.map_cons, List.map_append, List.sum_cons, List.sum_append,
        List.map_nil, List.sum_nil, successDelta, failedDelta]
      omega
    have hw := runBot_isWorkerOp obs botID M
    have hrec : recordedOutcomes (applyOps fl gs (runBot obs botID M)) botID
        = recordedOutcomes gs botID + (k - 1) := by
      rw [recordedOutcomes_applyOps fl botID _ gs hw,
        outcomeDeltaOf_own botID _ (runBot_ownOps obs botID M), hrun]
    refine ⟨hexec, hrec, ?_, ?_⟩
    · intro hnone
      rw [hrec]
      simp [recordedOutcomes, hnone]
    · rw [applyOps_TotalSuccessful fl _ gs hw, applyOps_TotalFailed fl _ gs hw]
      omega
  · rintro obs N M gs now gs1 hc hS hF ⟨sched, hI, rfl⟩
    obtain ⟨_, _, b3⟩ := launchBots_bookkeeping obs N M _ 1 rfl
    obtain ⟨c1, c2⟩ := launchBots_cancelledAtOnce obs N M hc _ 1 rfl
    have hw : ∀ op ∈ sched, isWorkerOp op = true :=
      Interleaving.forall_mem (fun op => isWorkerOp op = true) hI b3
    rw [applyOps_TotalSuccessful fl sched _ hw, applyOps_TotalFailed fl sched _ hw,
      hI.sum_map successDelta, hI.sum_map failedDelta, c1, c2]
    simp only [hS, hF]
    exact ⟨rfl, rfl⟩

/-- Worked instance of C16: a worker with 5 operations to do observes cancellation at
the loop-top check of iteration 3; it has called the executor twice and its record shows
one success and one failure. -/
theorem C16_no_operation_after_cancel_witness :
    cancelledAtTop cancelledAtThird 3 ∧
    (executorCalls cancelledAtThird 5 1 : Int) = 2 ∧
    recordedOutcomes (applyOps ratOps (NewGlobalStats ratOps) (runBot cancelledAtThird 1 5)) 1
      = 2 ∧
    getBot (applyOps ratOps (NewGlobalStats ratOps) (runBot cancelledAtThird 1 5)).Bots 1
      = some { ID := 1, Successful := 1, Failed := 1, Status := "Finished",
               LastError := "HTTP 500" } := by
  have hc : cancelledAtTop cancelledAtThird 3 := by
    refine ⟨?_, by simp [cancelledAtThird]⟩
    intro j h1 h2
    have hj : j = 1 ∨ j = 2 := by omega
    rcases hj with hj | hj <;> subst hj <;> simp [cancelledAtThird]
  obtain ⟨h1, _, h3, _⟩ := (C16_no_operation_after_cancel ratOps).1 (NewGlobalStats ratOps)
    cancelledAtThird 1 5 3 (by decide) (by decide) (Or.inl hc)
  refine ⟨hc, by simpa using h1, ?_, ?_⟩
  · have := h3 (by simp [NewGlobalStats, getBot])
    simpa using this
  · simp [runBot, runBotLoop, cancelledAtThird, applyOps, applyOp, NewGlobalStats,
      SetActiveBot, SetFinishedBot, UpdateBotStatus, IncrementSuccess, IncrementFailed,
      ensureBot, modifyBot, getBot, setBot]

/-! ## Delay sampling -/

theorem clampedProgress_eq (progress : Int) :
    clampedProgress progress = max 0 (min progress 100) := by
  unfold clampedProgress
  simp only []
  split_ifs <;> omega

theorem clampedProgress_range (progress : Int) :
    0 ≤ clampedProgress progress ∧ clampedProgress progress ≤ 100 := by
  rw [clampedProgress_eq]
  omega

theorem clampedProgress_mono (p1 p2 : Int) (hp : p1 ≤ p2) :
    clampedProgress p1 ≤ clampedProgress p2 := by
  rw [clampedProgress_eq, clampedProgress_eq]
  omega

theorem filledCells_eq (progress width : Int) (hw : 0 ≤ width)
    (hfit : clampedProgress progress * width ≤ 9223372036854775807) :
    filledCells progress width = (max 0 (min progress 100) * width) / 100 := by
  have hc : 0 ≤ clampedProgress progress := (clampedProgress_range progress).1
  have h0 : 0 ≤ clampedProgress progress * width := mul_nonneg hc hw
  unfold filledCells
  rw [wrap64_eq_self _ (by omega) (by omega), Int.tdiv_eq_ediv h0 (by decide),
    clampedProgress_eq]

theorem filledCells_bounds (progress width : Int) (hw : 0 ≤ width)
    (hfit : clampedProgress progress * width ≤ 9223372036854775807) :
    0 ≤ filledCells progress width ∧ filledCells progress width ≤ width := by
  rw [filledCells_eq progress width hw hfit]
  have h0 : 0 ≤ max 0 (min progress 100) * width := mul_nonneg (by omega) hw
  have h1 : max 0 (min progress 100) * width ≤ 100 * width :=
    mul_le_mul_of_nonneg_right (by omega) hw
  constructor <;> omega

theorem filledCells_full_iff (progress width : Int) (hw : 0 ≤ width)
    (hfit : clampedProgress progress * width ≤ 9223372036854775807) :
    filledCells progress width = width ↔ width = 0 ∨ progress ≥ 100 := by
  rw [filledCells_eq progress width hw hfit]
  have h1 : max 0 (min progress 100) * width ≤ 100 * width :=
    mul_le_mul_of_nonneg_right (by omega) hw
  constructor
  · intro h
    have h2 : max 0 (min progress 100) * width = 100 * width := by omega
    rcases mul_eq_mul_right_iff.1 h2 with h3 | h3
    · right
      omega
    · left
      exact h3
  · rintro (h | h)
    · subst h
      simp
    · have h3 : max 0 (min progress 100) = 100 := by omega
      rw [h3]
      omega

theorem filledCells_mono (p1 p2 width : Int) (hw : 0 ≤ width)
    (hfit : clampedProgress p2 * width ≤ 9223372036854775807) (hp : p1 ≤ p2) :
    filledCells p1 width ≤ filledCells p2 width := by
  have hfit1 : clampedProgress p1 * width ≤ 9223372036854775807 :=
    le_trans (mul_le_mul_of_nonneg_right (clampedProgress_mono p1 p2 hp) hw) hfit
  rw [filledCells_eq p1 width hw hfit1, filledCells_eq p2 width hw hfit]
  have h1 : max 0 (min p1 100) * width ≤ max 0 (min p2 100) * width :=
    mul_le_mul_of_nonneg_right (by omega) hw
  omega

theorem byteLen_replicate (n : Nat) (c : Char) :
    byteLen (List.replicate n c) = (n : Int) * byteLen [c] := by
  induction n with
  | zero => simp [byteLen]
  | succ k ih =>
    rw [List.replicate_succ]
    have hcons : byteLen (c :: List.replicate k c)
        = byteLen [c] + byteLen (List.replicate k c) := by
      simp [byteLen]
    rw [hcons, ih]
    push_cast
    ring

theorem byteLen_fullCell : byteLen [fullCell] = 3 := by decide

theorem byteLen_emptyCell : byteLen [emptyCell] = 3 := by decide

/-- Claim C20, as stated, fails: for `progress = 100` and `width = 92233720368547759`
the exact product `9223372036854775900` is larger than `2^63 - 1`, the 64-bit product is
`-9223372036854775716`, `filled` is `-92233720368547757`, and `strings.Repeat` panics on
the negative count, whatever the memory of the machine: no bar is produced. -/
theorem C20_counterexample :
    (0 : Int) ≤ 92233720368547759 ∧
    clampedProgress 100 * 92233720368547759 = 9223372036854775900 ∧
    wrap64 (clampedProgress 100 * 92233720368547759) = -9223372036854775716 ∧
    filledCells 100 92233720368547759 = -92233720368547757 ∧
    (∀ maxAlloc, repeatCell maxAlloc fullCell (filledCells 100 92233720368547759) = none) ∧
    (∀ maxAlloc, GenerateProgressBar maxAlloc 100 92233720368547759 = none) := by
  have hf : filledCells 100 92233720368547759 = -92233720368547757 := by decide
  have hr : ∀ maxAlloc,
      repeatCell maxAlloc fullCell (filledCells 100 92233720368547759) = none := by
    intro maxAlloc
    rw [hf]
    rfl
  refine ⟨by decide, by decide, by decide, hf, hr, ?_⟩
  intro maxAlloc
  unfold GenerateProgressBar
  simp only []
  rw [hr maxAlloc]

/-- Claim C20, amended: for every integer `progress` and every `width ≥ 0` such that the
product `clamp(progress, 0, 100) * width` fits in 64 bits (it does for every
`width ≤ 92233720368547758`) and a string of `3 * width` bytes can be created (it is at
most `2^63 - 1` bytes long and not larger than the largest block `maxAlloc` of the
runtime), `GenerateProgressBar` returns a bar of `filled = floor(clamp(progress, 0, 100)
* width / 100)` filled cells followed by `width - filled` empty cells, with
`0 ≤ filled ≤ width`; the bar is exactly `width` cells long, it is fully filled iff
`width = 0` or `progress ≥ 100`, and `filled` is non-decreasing in `progress`. -/
theorem C20_progress_bar_width (maxAlloc progress width : Int) (hw : 0 ≤ width)
    (hfit : clampedProgress progress * width ≤ 9223372036854775807)
    (hlen : 3 * width ≤ 9223372036854775807) (hmem : 3 * width ≤ maxAlloc) :
    filledCells progress width = (max 0 (min progress 100) * width) / 100 ∧
    0 ≤ filledCells progress width ∧ filledCells progress width ≤ width ∧
    GenerateProgressBar maxAlloc progress width
      = some (String.mk
          (List.replicate (filledCells progress width).toNat fullCell
            ++ List.replicate (width - filledCells progress width).toNat emptyCell)) ∧
    (∀ bar, GenerateProgressBar maxAlloc progress width = some bar →
      (bar.length : Int) = width) ∧
    (filledCells progress width = width ↔ width = 0 ∨ progress ≥ 100) ∧
    (∀ smaller, smaller ≤ progress →
      filledCells smaller width ≤ filledCells progress width) := by
  obtain ⟨h0, h1⟩ := filledCells_bounds progress width hw hfit
  have hsub : wrap64 (width - filledCells progress width)
      = width - filledCells progress width :=
    wrap64_eq_self _ (by omega) (by omega)
  have hbar : GenerateProgressBar maxAlloc progress width
      = some (String.mk
          (List.replicate (filledCells progress width).toNat fullCell
            ++ List.replicate (width - filledCells progress width).toNat emptyCell)) := by
    have ha : canAllocate maxAlloc (byteLen [fullCell] * filledCells progress width)
        = true := by
      rw [byteLen_fullCell]
      unfold canAllocate
      rw [decide_eq_true_eq]
      omega
    have hb : canAllocate maxAlloc
        (byteLen [emptyCell] * (width - filledCells progress width)) = true := by
      rw [byteLen_emptyCell]
      unfold canAllocate
      rw [decide_eq_true_eq]
      omega
    have hc : canAllocate maxAlloc
        (byteLen (List.replicate (filledCells progress width).toNat fullCell)
          + byteLen (List.replicate (width - filledCells progress width).toNat emptyCell))
        = true := by
      rw [byteLen_replicate, byteLen_replicate, byteLen_fullCell, byteLen_emptyCell]
      unfold canAllocate
      rw [decide_eq_true_eq]
      omega
    have hn1 : ¬ filledCells progress width < 0 := by omega
    have hn2 : ¬ width - filledCells progress width < 0 := by omega
    have r1 : repeatCell maxAlloc fullCell (filledCells progress width)
        = some (List.replicate (filledCells progress width).toNat fullCell) := by
      unfold repeatCell
      rw [if_neg hn1, if_pos ha]
    have r2 : repeatCell maxAlloc emptyCell (width - filledCells progress width)
        = some (List.replicate (width - filledCells progress width).toNat emptyCell) := by
      unfold repeatCell
      rw [if_neg hn2, if_pos hb]
    unfold GenerateProgressBar
    simp only []
    rw [hsub, r1, r2]
    simp only []
    rw [if_pos hc]
  refine ⟨filledCells_eq progress width hw hfit, h0, h1, hbar, ?_,
    filledCells_full_iff progress width hw hfit,
    fun s hs => filledCells_mono s progress width hw hfit hs⟩
  intro bar hb
  rw [hbar] at hb
  injection hb with hb
  rw [← hb]
  simp only [String.length, List.length_append, List.length_replicate]
  omega

/-- Worked instance of C20: with blocks of up to `2^48` bytes, 37 percent of a bar of 50
cells fills 18 cells, and the bar is 50 cells long. -/
theorem C20_progress_bar_width_witness :
    (0 : Int) ≤ 50 ∧ clampedProgress 37 * 50 ≤ 9223372036854775807 ∧
    (3 : Int) * 50 ≤ 9223372036854775807 ∧ (3 : Int) * 50 ≤ 281474976710656 ∧
    filledCells 37 50 = 18 ∧ filledCells 250 50 = 50 ∧
    filledCells (-4) 50 = 0 ∧
    (∀ bar, GenerateProgressBar 281474976710656 37 50 = some bar →
      (bar.length : Int) = 50) ∧
    GenerateProgressBar 281474976710656 37 50
      = some (String.mk (List.replicate 18 fullCell ++ List.replicate 32 emptyCell)) := by
  obtain ⟨_, _, _, h4, h5, _, _⟩ :=
    C20_progress_bar_width 281474976710656 37 50 (by decide) (by decide) (by decide)
      (by decide)
  exact ⟨by decide, by decide, by decide, by decide, by decide, by decide, by decide, h5, h4⟩

/-! ## Number formatting -/

/-- Claim C18 on the code: `FormatNumber(-123)` is "-,123" and `FormatNumber(-123456)`
is "-,123,456": the minus sign is counted as a digit, so a comma follows it, and the
property of the claim fails; it holds for 1234567, -1234 and -1234567. -/
theorem C18_negative_number_bad_comma :
    FormatNumber (-123) = "-,123" ∧
    FormatNumber (-123456) = "-,123,456" ∧
    separatedCorrectly (-123) = false ∧
    separatedCorrectly (-123456) = false ∧
    FormatNumber 1234567 = "1,234,567" ∧
    FormatNumber (-1234) = "-1,234" ∧
    separatedCorrectly 1234567 = true ∧
    separatedCorrectly (-1234) = true ∧
    separatedCorrectly (-1234567) = true := by
  refine ⟨?_, ?_, ?_, ?_, ?_, ?_, ?_, ?_, ?_⟩ <;> decide

/-! ## Proxy list -/

theorem HasPrefix_hash (line : List Char) :
    HasPrefix line ['#'] = (line.head? == some '#') := by
  cases line with
  | nil => rfl
  | cons c cs =>
    simp [HasPrefix, List.isPrefixOf, eq_comm]

theorem String_mk_eq_empty (l : List Char) : String.mk l = "" ↔ l = [] := by
  constructor
  · intro h
    have h2 := congrArg String.data h
    exact h2
  · intro h
    rw [h]

/-- One step of the loop of `LoadFromFile`: the line adds its proxy exactly when it is
accepted. -/
theorem loadLoop_cons (text : String) (rest : List String) (proxyList : List Proxy) :
    loadLoop (text :: rest) proxyList
      = loadLoop rest
          (if lineAccepted text = true then proxyList ++ [lineProxy text] else proxyList) := by
  rw [loadLoop]
  simp only [HasPrefix_hash, String_mk_eq_empty, lineAccepted, lineProxy]
  generalize TrimSpace text.toList = line
  generalize Split ':' line = parts
  generalize TrimSpace (parts.getD 0 []) = ip
  generalize TrimSpace (parts.getD 1 []) = port
  by_cases h1 : line = []
  · simp [h1]
  · by_cases h2 : (line.head? == some '#') = true
    · simp [h1, h2]
    · by_cases h3 : parts.length = 4
      · by_cases h4 : ip = []
        · simp [h1, h2, h3, h4]
        · by_cases h5 : port = []
          · simp [h1, h2, h3, h4, h5]
          · simp [h1, h2, h3, h4, h5]
      · simp [h1, h2, h3]

theorem loadLoop_eq (lines : List String) :
    ∀ proxyList : List Proxy,
      loadLoop lines proxyList
        = proxyList ++ (lines.filter (fun l => lineAccepted l)).map lineProxy := by
  induction lines with
  | nil => intro proxyList; simp [loadLoop]
  | cons text rest ih =>
    intro proxyList
    rw [loadLoop_cons, ih]
    by_cases h : lineAccepted text = true
    · simp [h, List.filter_cons]
    · simp [h, List.filter_cons]

/-- Claim C19: for every input line, the loop of `LoadFromFile` adds a proxy for that
line if and only if the whitespace-trimmed line is non-empty, does not start with `#`,
splits on `:` into exactly four parts, and the trimmed first and second parts are both
non-empty; when the file is read without error the loaded list is exactly the proxies
of the accepted lines, in file order, each of the four fields whitespace-trimmed, so
`Count()` is the number of accepted lines and `IsEmpty()` holds iff no line was
accepted. -/
theorem C19_proxy_line_acceptance (pm : ProxyManager) (lines : List String) :
    (∀ (text : String) (rest : List String) (proxyList : List Proxy),
      (lineAccepted text = true →
        loadLoop (text :: rest) proxyList = loadLoop rest (proxyList ++ [lineProxy text])) ∧
      (lineAccepted text = false →
        loadLoop (text :: rest) proxyList = loadLoop rest proxyList)) ∧
    (LoadFromFile { openError := none, lines := lines, scanError := none } pm).2 = none ∧
    (LoadFromFile { openError := none, lines := lines, scanError := none } pm).1.proxies
      = (lines.filter (fun l => lineAccepted l)).map lineProxy ∧
    Count (LoadFromFile { openError := none, lines := lines, scanError := none } pm).1
      = ((lines.filter (fun l => lineAccepted l)).length : Int) ∧
    (IsEmpty (LoadFromFile { openError := none, lines := lines, scanError := none } pm).1
        = true ↔ ∀ l ∈ lines, lineAccepted l = false) := by
  have hp : (LoadFromFile { openError := none, lines := lines, scanError := none } pm).1.proxies
      = (lines.filter (fun l => lineAccepted l)).map lineProxy := by
    simp [LoadFromFile, loadLoop_eq]
  refine ⟨?_, rfl, hp, ?_, ?_⟩
  · intro text rest proxyList
    constructor
    · intro h
      rw [loadLoop_cons, if_pos h]
    · intro h
      rw [loadLoop_cons, if_neg (by simp [h])]
  · simp [Count, hp]
  · simp [IsEmpty, hp, List.filter_eq_nil_iff]

/-- Worked instance of C19: of the seven sample lines the third and the sixth are
accepted, and the two proxies are loaded in that order with trimmed fields. -/
theorem C19_proxy_line_acceptance_witness :
    sampleProxyLines.map lineAccepted = [false, false, true, false, false, true, false] ∧
    (LoadFromFile { openError := none, lines := sampleProxyLines, scanError := none }
        NewProxyManager).1.proxies
      = [{ IP := "1.2.3.4", Port := "8080", Username := "user", Password := "pass" },
         { IP := "5.6.7.8", Port := "3128", Username := "", Password := "" }] ∧
    Count (LoadFromFile { openError := none, lines := sampleProxyLines, scanError := none }
        NewProxyManager).1 = 2 ∧
    IsEmpty (LoadFromFile { openError := none, lines := sampleProxyLines, scanError := none }
        NewProxyManager).1 = false := by
  obtain ⟨_, _, h3, h4, _⟩ := C19_proxy_line_acceptance NewProxyManager sampleProxyLines
  refine ⟨by decide, ?_, ?_, ?_⟩
  · rw [h3]
    decide
  · rw [h4]
    decide
  · decide

end KickClipper
